import Mathlib

/-!
Verification development for the tile-graph construction and entity
movement subsystem of the `arrows-not-found` game.

The definitions below are shallow embeddings of the JavaScript source:

* `normCell` / `normalize` embed the marker-extraction pass of
  `levelLoader` in `src/js/views/game.js` (lines 41-116): the body of the
  `map.data.map((id, i) => ...)` callback, threading the mutable `meta`
  record from cell to cell.
* `collisionMap` / `maskOf` embed the per-tile collision table and the
  JavaScript lookup `collisionMap[id]`, where a missing key yields
  `undefined` and `undefined & m` evaluates to `0`.
* `addEdge` / `buildStep` / `buildAdj` embed the graph-construction loop
  (lines 156-182): one `GraphNode` per cell with a mutable neighbour set;
  `GraphNode.add` inserts both directions.  Nodes are identified by their
  cell index; a node's grid coordinates are `i % width` and `i / width`.
* `EState` / `updFrame` / `commitPart` embed the `Entity` variant in
  `src/unnamed/part_003`: per-frame advance, clamped delta decay and
  snap-on-settle, plus the move-tick commit with its graph neighbour
  check.  The driver loop (`src/unnamed/part_006`) calls
  `update(delta, acc >= 1 / GAME_SPEED)` from a fixed-step loop with
  `delta = 1/60`, so one move-tick window is one committing frame
  followed by 29 plain frames (`window`).
* `Entity2` embeds the `Entity` variant of `src/js/entity.js` with its
  guarded `x`/`y` setters and `moving` flag.

Numbers are embedded as rationals (the source arithmetic stays exact on
the values reached by these runs), and array indexing is embedded with
`getD` defaults that are never reached in the proved runs.
-/

/-! ### Constants from `src/js/constants.js` -/

def TILE_GROUND : ℕ := 16

def TILE_SPAWN : ℕ := 5

def GAME_SPEED : ℚ := 2

def ERROR_CORRECTION : ℚ := 13333333333331593 / 100000000000000000

/-- The `tileSize` of the shipped maps; also `this.object.width` of the player
sprite, which is cut from the tileset at that size. -/
def TILE : ℚ := 8

def DIRECTION_NONE : ℕ := 0

def DIRECTION_LEFT : ℕ := 1

def DIRECTION_DOWN : ℕ := 2

def DIRECTION_RIGHT : ℕ := 3

def DIRECTION_UP : ℕ := 4

/-! ### Level normalization (`levelLoader`, `src/js/views/game.js` 41-116) -/

/-- The mutable `meta` record of `levelLoader`. -/
structure LevelMeta where
  spawn : ℤ
  key : ℤ
  door : ℤ
  secret : ℤ
  stairs : ℤ
  dog : ℤ
  fire : ℤ
  chests : List ℕ
  skeletons : List ℕ
  zombies : List ℕ
  cultists : List ℕ
  ghosts : List ℕ
  slimes : List ℕ
deriving DecidableEq

def initMeta : LevelMeta :=
  ⟨-1, -1, -1, -1, -1, -1, -1, [], [], [], [], [], []⟩

/-- The fall-through section of the callback body, reached when none of the
seven early-`return` branches fired: the dead second `id === 20` branch and
the key/door/stairs/chest branches, which do not replace the tile. -/
def normTail (m : LevelMeta) (i : ℕ) (id : ℕ) : LevelMeta :=
  let m := if id = 20 then { m with fire := (i : ℤ) } else m
  let m := if id = 81 then { m with key := (i : ℤ) } else m
  let m := if id = 55 then { m with door := (i : ℤ) } else m
  let m := if id = 48 then { m with stairs := (i : ℤ) } else m
  let m := if id = 52 then { m with chests := m.chests ++ [i] } else m
  m

/-- One evaluation of the `map.data.map((id, i) => ...)` callback body.
The first seven branches `return` early; the rest falls through to
`normTail` and `return id`. -/
def normCell (m : LevelMeta) (i : ℕ) (id : ℕ) : LevelMeta × ℕ :=
  if id = TILE_SPAWN then ({ m with spawn := (i : ℤ) }, TILE_GROUND)
  else if id = 11 then ({ m with skeletons := m.skeletons ++ [i] }, TILE_GROUND)
  else if id = 12 then ({ m with zombies := m.zombies ++ [i] }, TILE_GROUND)
  else if id = 10 then ({ m with cultists := m.cultists ++ [i] }, TILE_GROUND)
  else if id = 24 then ({ m with ghosts := m.ghosts ++ [i] }, TILE_GROUND)
  else if id = 23 then ({ m with slimes := m.slimes ++ [i] }, TILE_GROUND)
  else if id = 20 then ({ m with dog := (i : ℤ) }, TILE_GROUND)
  else (normTail m i id, id)

/-- Left-to-right traversal of the data array, threading `meta` and
producing the replaced array, starting at index `i`. -/
def normGo (m : LevelMeta) (i : ℕ) : List ℕ → LevelMeta × List ℕ
  | [] => (m, [])
  | id :: rest =>
    let p := normCell m i id
    let q := normGo p.1 (i + 1) rest
    (q.1, p.2 :: q.2)

/-- The whole normalization pass over `map.data`. -/
def normalizeLevel (data : List ℕ) : LevelMeta × List ℕ :=
  normGo initMeta 0 data

/-- Spec-side description of the per-cell replacement: marker ids that the
loader rewrites to ground, everything else kept. -/
def replaceFn (id : ℕ) : ℕ :=
  if id = TILE_SPAWN ∨ id = 11 ∨ id = 12 ∨ id = 10 ∨ id = 24 ∨ id = 23 ∨ id = 20
  then TILE_GROUND else id

/-- Spec-side description of a latched singular marker: the last index at
which `t` occurs, counting from base index `i`, else the default. -/
def lastD (t : ℕ) (i : ℕ) (d : ℤ) : List ℕ → ℤ
  | [] => d
  | id :: rest => lastD t (i + 1) (if id = t then (i : ℤ) else d) rest

/-- Spec-side description of a plural marker list: all indices at which
`t` occurs, in order, counting from base index `i`. -/
def marksAux (t : ℕ) (i : ℕ) : List ℕ → List ℕ
  | [] => []
  | id :: rest => (if id = t then [i] else []) ++ marksAux t (i + 1) rest

theorem normCell_snd (m : LevelMeta) (i : ℕ) (id : ℕ) :
    (normCell m i id).2 = replaceFn id := by
  simp only [normCell, replaceFn]
  by_cases h5 : id = TILE_SPAWN <;> simp [h5] <;>
  by_cases h11 : id = 11 <;> simp [h11] <;>
  by_cases h12 : id = 12 <;> simp [h12] <;>
  by_cases h10 : id = 10 <;> simp [h10] <;>
  by_cases h24 : id = 24 <;> simp [h24] <;>
  by_cases h23 : id = 23 <;> simp [h23] <;>
  by_cases h20 : id = 20 <;> simp [h20]

theorem normGo_snd (m : LevelMeta) (i : ℕ) (l : List ℕ) :
    (normGo m i l).2 = l.map replaceFn := by
  induction l generalizing m i with
  | nil => rfl
  | cons id rest ih =>
    simp only [normGo, List.map_cons, ih, normCell_snd]

theorem normTail_spawn (m : LevelMeta) (i : ℕ) (id : ℕ) :
    (normTail m i id).spawn = m.spawn := by
  simp [normTail, apply_ite LevelMeta.spawn]

theorem normTail_dog (m : LevelMeta) (i : ℕ) (id : ℕ) :
    (normTail m i id).dog = m.dog := by
  simp [normTail, apply_ite LevelMeta.dog]

theorem normTail_secret (m : LevelMeta) (i : ℕ) (id : ℕ) :
    (normTail m i id).secret = m.secret := by
  simp [normTail, apply_ite LevelMeta.secret]

theorem normTail_fire (m : LevelMeta) (i : ℕ) (id : ℕ) :
    (normTail m i id).fire = if id = 20 then (i : ℤ) else m.fire := by
  simp [normTail, apply_ite LevelMeta.fire]

theorem normTail_key (m : LevelMeta) (i : ℕ) (id : ℕ) :
    (normTail m i id).key = if id = 81 then (i : ℤ) else m.key := by
  simp [normTail, apply_ite LevelMeta.key]

theorem normTail_door (m : LevelMeta) (i : ℕ) (id : ℕ) :
    (normTail m i id).door = if id = 55 then (i : ℤ) else m.door := by
  simp [normTail, apply_ite LevelMeta.door]

theorem normTail_stairs (m : LevelMeta) (i : ℕ) (id : ℕ) :
    (normTail m i id).stairs = if id = 48 then (i : ℤ) else m.stairs := by
  simp [normTail, apply_ite LevelMeta.stairs]

theorem normTail_chests (m : LevelMeta) (i : ℕ) (id : ℕ) :
    (normTail m i id).chests = if id = 52 then m.chests ++ [i] else m.chests := by
  simp [normTail, apply_ite LevelMeta.chests]

theorem normTail_skeletons (m : LevelMeta) (i : ℕ) (id : ℕ) :
    (normTail m i id).skeletons = m.skeletons := by
  simp [normTail, apply_ite LevelMeta.skeletons]

theorem normTail_zombies (m : LevelMeta) (i : ℕ) (id : ℕ) :
    (normTail m i id).zombies = m.zombies := by
  simp [normTail, apply_ite LevelMeta.zombies]

theorem normTail_cultists (m : LevelMeta) (i : ℕ) (id : ℕ) :
    (normTail m i id).cultists = m.cultists := by
  simp [normTail, apply_ite LevelMeta.cultists]

theorem normTail_ghosts (m : LevelMeta) (i : ℕ) (id : ℕ) :
    (normTail m i id).ghosts = m.ghosts := by
  simp [normTail, apply_ite LevelMeta.ghosts]

theorem normTail_slimes (m : LevelMeta) (i : ℕ) (id : ℕ) :
    (normTail m i id).slimes = m.slimes := by
  simp [normTail, apply_ite LevelMeta.slimes]

theorem normCell_spawn (m : LevelMeta) (i : ℕ) (id : ℕ) :
    (normCell m i id).1.spawn = if id = TILE_SPAWN then (i : ℤ) else m.spawn := by
  by_cases h5 : id = 5; · simp [normCell, TILE_SPAWN, TILE_GROUND, h5]
  by_cases h11 : id = 11; · simp [normCell, TILE_SPAWN, TILE_GROUND, h5, h11]
  by_cases h12 : id = 12; · simp [normCell, TILE_SPAWN, TILE_GROUND, h5, h11, h12]
  by_cases h10 : id = 10; · simp [normCell, TILE_SPAWN, TILE_GROUND, h5, h11, h12, h10]
  by_cases h24 : id = 24; · simp [normCell, TILE_SPAWN, TILE_GROUND, h5, h11, h12, h10, h24]
  by_cases h23 : id = 23; · simp [normCell, TILE_SPAWN, TILE_GROUND, h5, h11, h12, h10, h24, h23]
  by_cases h20 : id = 20; · simp [normCell, TILE_SPAWN, TILE_GROUND, h5, h11, h12, h10, h24, h23, h20]
  simp [normCell, TILE_SPAWN, TILE_GROUND, h5, h11, h12, h10, h24, h23, h20, normTail_spawn]

theorem normCell_fst (m : LevelMeta) (i : ℕ) (id : ℕ) :
    (normCell m i id).1 =
      if id = 5 then { m with spawn := (i : ℤ) }
      else if id = 11 then { m with skeletons := m.skeletons ++ [i] }
      else if id = 12 then { m with zombies := m.zombies ++ [i] }
      else if id = 10 then { m with cultists := m.cultists ++ [i] }
      else if id = 24 then { m with ghosts := m.ghosts ++ [i] }
      else if id = 23 then { m with slimes := m.slimes ++ [i] }
      else if id = 20 then { m with dog := (i : ℤ) }
      else normTail m i id := by
  simp only [normCell, TILE_SPAWN]
  split_ifs <;> rfl

theorem normCell_key (m : LevelMeta) (i : ℕ) (id : ℕ) :
    (normCell m i id).1.key = if id = 81 then (i : ℤ) else m.key := by
  by_cases h5 : id = 5; · simp [normCell, TILE_SPAWN, TILE_GROUND, h5]
  by_cases h11 : id = 11; · simp [normCell, TILE_SPAWN, TILE_GROUND, h5, h11]
  by_cases h12 : id = 12; · simp [normCell, TILE_SPAWN, TILE_GROUND, h5, h11, h12]
  by_cases h10 : id = 10; · simp [normCell, TILE_SPAWN, TILE_GROUND, h5, h11, h12, h10]
  by_cases h24 : id = 24; · simp [normCell, TILE_SPAWN, TILE_GROUND, h5, h11, h12, h10, h24]
  by_cases h23 : id = 23; · simp [normCell, TILE_SPAWN, TILE_GROUND, h5, h11, h12, h10, h24, h23]
  by_cases h20 : id = 20; · simp [normCell, TILE_SPAWN, TILE_GROUND, h5, h11, h12, h10, h24, h23, h20]
  simp [normCell, TILE_SPAWN, TILE_GROUND, h5, h11, h12, h10, h24, h23, h20, normTail_key]

theorem normCell_door (m : LevelMeta) (i : ℕ) (id : ℕ) :
    (normCell m i id).1.door = if id = 55 then (i : ℤ) else m.door := by
  by_cases h5 : id = 5; · simp [normCell, TILE_SPAWN, TILE_GROUND, h5]
  by_cases h11 : id = 11; · simp [normCell, TILE_SPAWN, TILE_GROUND, h5, h11]
  by_cases h12 : id = 12; · simp [normCell, TILE_SPAWN, TILE_GROUND, h5, h11, h12]
  by_cases h10 : id = 10; · simp [normCell, TILE_SPAWN, TILE_GROUND, h5, h11, h12, h10]
  by_cases h24 : id = 24; · simp [normCell, TILE_SPAWN, TILE_GROUND, h5, h11, h12, h10, h24]
  by_cases h23 : id = 23; · simp [normCell, TILE_SPAWN, TILE_GROUND, h5, h11, h12, h10, h24, h23]
  by_cases h20 : id = 20; · simp [normCell, TILE_SPAWN, TILE_GROUND, h5, h11, h12, h10, h24, h23, h20]
  simp [normCell, TILE_SPAWN, TILE_GROUND, h5, h11, h12, h10, h24, h23, h20, normTail_door]

theorem normCell_stairs (m : LevelMeta) (i : ℕ) (id : ℕ) :
    (normCell m i id).1.stairs = if id = 48 then (i : ℤ) else m.stairs := by
  by_cases h5 : id = 5; · simp [normCell, TILE_SPAWN, TILE_GROUND, h5]
  by_cases h11 : id = 11; · simp [normCell, TILE_SPAWN, TILE_GROUND, h5, h11]
  by_cases h12 : id = 12; · simp [normCell, TILE_SPAWN, TILE_GROUND, h5, h11, h12]
  by_cases h10 : id = 10; · simp [normCell, TILE_SPAWN, TILE_GROUND, h5, h11, h12, h10]
  by_cases h24 : id = 24; · simp [normCell, TILE_SPAWN, TILE_GROUND, h5, h11, h12, h10, h24]
  by_cases h23 : id = 23; · simp [normCell, TILE_SPAWN, TILE_GROUND, h5, h11, h12, h10, h24, h23]
  by_cases h20 : id = 20; · simp [normCell, TILE_SPAWN, TILE_GROUND, h5, h11, h12, h10, h24, h23, h20]
  simp [normCell, TILE_SPAWN, TILE_GROUND, h5, h11, h12, h10, h24, h23, h20, normTail_stairs]

theorem normCell_dog (m : LevelMeta) (i : ℕ) (id : ℕ) :
    (normCell m i id).1.dog = if id = 20 then (i : ℤ) else m.dog := by
  by_cases h5 : id = 5; · simp [normCell, TILE_SPAWN, TILE_GROUND, h5]
  by_cases h11 : id = 11; · simp [normCell, TILE_SPAWN, TILE_GROUND, h5, h11]
  by_cases h12 : id = 12; · simp [normCell, TILE_SPAWN, TILE_GROUND, h5, h11, h12]
  by_cases h10 : id = 10; · simp [normCell, TILE_SPAWN, TILE_GROUND, h5, h11, h12, h10]
  by_cases h24 : id = 24; · simp [normCell, TILE_SPAWN, TILE_GROUND, h5, h11, h12, h10, h24]
  by_cases h23 : id = 23; · simp [normCell, TILE_SPAWN, TILE_GROUND, h5, h11, h12, h10, h24, h23]
  by_cases h20 : id = 20; · simp [normCell, TILE_SPAWN, TILE_GROUND, h5, h11, h12, h10, h24, h23, h20]
  simp [normCell, TILE_SPAWN, TILE_GROUND, h5, h11, h12, h10, h24, h23, h20, normTail_dog]

theorem normCell_fire (m : LevelMeta) (i : ℕ) (id : ℕ) :
    (normCell m i id).1.fire = m.fire := by
  by_cases h5 : id = 5; · simp [normCell, TILE_SPAWN, TILE_GROUND, h5]
  by_cases h11 : id = 11; · simp [normCell, TILE_SPAWN, TILE_GROUND, h5, h11]
  by_cases h12 : id = 12; · simp [normCell, TILE_SPAWN, TILE_GROUND, h5, h11, h12]
  by_cases h10 : id = 10; · simp [normCell, TILE_SPAWN, TILE_GROUND, h5, h11, h12, h10]
  by_cases h24 : id = 24; · simp [normCell, TILE_SPAWN, TILE_GROUND, h5, h11, h12, h10, h24]
  by_cases h23 : id = 23; · simp [normCell, TILE_SPAWN, TILE_GROUND, h5, h11, h12, h10, h24, h23]
  by_cases h20 : id = 20; · simp [normCell, TILE_SPAWN, TILE_GROUND, h5, h11, h12, h10, h24, h23, h20]
  simp [normCell, TILE_SPAWN, TILE_GROUND, h5, h11, h12, h10, h24, h23, h20, normTail_fire]

theorem normCell_secret (m : LevelMeta) (i : ℕ) (id : ℕ) :
    (normCell m i id).1.secret = m.secret := by
  by_cases h5 : id = 5; · simp [normCell, TILE_SPAWN, TILE_GROUND, h5]
  by_cases h11 : id = 11; · simp [normCell, TILE_SPAWN, TILE_GROUND, h5, h11]
  by_cases h12 : id = 12; · simp [normCell, TILE_SPAWN, TILE_GROUND, h5, h11, h12]
  by_cases h10 : id = 10; · simp [normCell, TILE_SPAWN, TILE_GROUND, h5, h11, h12, h10]
  by_cases h24 : id = 24; · simp [normCell, TILE_SPAWN, TILE_GROUND, h5, h11, h12, h10, h24]
  by_cases h23 : id = 23; · simp [normCell, TILE_SPAWN, TILE_GROUND, h5, h11, h12, h10, h24, h23]
  by_cases h20 : id = 20; · simp [normCell, TILE_SPAWN, TILE_GROUND, h5, h11, h12, h10, h24, h23, h20]
  simp [normCell, TILE_SPAWN, TILE_GROUND, h5, h11, h12, h10, h24, h23, h20, normTail_secret]

theorem normCell_chests (m : LevelMeta) (i : ℕ) (id : ℕ) :
    (normCell m i id).1.chests = if id = 52 then m.chests ++ [i] else m.chests := by
  by_cases h5 : id = 5; · simp [normCell, TILE_SPAWN, TILE_GROUND, h5]
  by_cases h11 : id = 11; · simp [normCell, TILE_SPAWN, TILE_GROUND, h5, h11]
  by_cases h12 : id = 12; · simp [normCell, TILE_SPAWN, TILE_GROUND, h5, h11, h12]
  by_cases h10 : id = 10; · simp [normCell, TILE_SPAWN, TILE_GROUND, h5, h11, h12, h10]
  by_cases h24 : id = 24; · simp [normCell, TILE_SPAWN, TILE_GROUND, h5, h11, h12, h10, h24]
  by_cases h23 : id = 23; · simp [normCell, TILE_SPAWN, TILE_GROUND, h5, h11, h12, h10, h24, h23]
  by_cases h20 : id = 20; · simp [normCell, TILE_SPAWN, TILE_GROUND, h5, h11, h12, h10, h24, h23, h20]
  simp [normCell, TILE_SPAWN, TILE_GROUND, h5, h11, h12, h10, h24, h23, h20, normTail_chests]

theorem normCell_skeletons (m : LevelMeta) (i : ℕ) (id : ℕ) :
    (normCell m i id).1.skeletons =
      if id = 11 then m.skeletons ++ [i] else m.skeletons := by
  by_cases h5 : id = 5; · simp [normCell, TILE_SPAWN, TILE_GROUND, h5]
  by_cases h11 : id = 11; · simp [normCell, TILE_SPAWN, TILE_GROUND, h5, h11]
  by_cases h12 : id = 12; · simp [normCell, TILE_SPAWN, TILE_GROUND, h5, h11, h12]
  by_cases h10 : id = 10; · simp [normCell, TILE_SPAWN, TILE_GROUND, h5, h11, h12, h10]
  by_cases h24 : id = 24; · simp [normCell, TILE_SPAWN, TILE_GROUND, h5, h11, h12, h10, h24]
  by_cases h23 : id = 23; · simp [normCell, TILE_SPAWN, TILE_GROUND, h5, h11, h12, h10, h24, h23]
  by_cases h20 : id = 20; · simp [normCell, TILE_SPAWN, TILE_GROUND, h5, h11, h12, h10, h24, h23, h20]
  simp [normCell, TILE_SPAWN, TILE_GROUND, h5, h11, h12, h10, h24, h23, h20, normTail_skeletons]

theorem normCell_zombies (m : LevelMeta) (i : ℕ) (id : ℕ) :
    (normCell m i id).1.zombies = if id = 12 then m.zombies ++ [i] else m.zombies := by
  by_cases h5 : id = 5; · simp [normCell, TILE_SPAWN, TILE_GROUND, h5]
  by_cases h11 : id = 11; · simp [normCell, TILE_SPAWN, TILE_GROUND, h5, h11]
  by_cases h12 : id = 12; · simp [normCell, TILE_SPAWN, TILE_GROUND, h5, h11, h12]
  by_cases h10 : id = 10; · simp [normCell, TILE_SPAWN, TILE_GROUND, h5, h11, h12, h10]
  by_cases h24 : id = 24; · simp [normCell, TILE_SPAWN, TILE_GROUND, h5, h11, h12, h10, h24]
  by_cases h23 : id = 23; · simp [normCell, TILE_SPAWN, TILE_GROUND, h5, h11, h12, h10, h24, h23]
  by_cases h20 : id = 20; · simp [normCell, TILE_SPAWN, TILE_GROUND, h5, h11, h12, h10, h24, h23, h20]
  simp [normCell, TILE_SPAWN, TILE_GROUND, h5, h11, h12, h10, h24, h23, h20, normTail_zombies]

theorem normCell_cultists (m : LevelMeta) (i : ℕ) (id : ℕ) :
    (normCell m i id).1.cultists =
      if id = 10 then m.cultists ++ [i] else m.cultists := by
  by_cases h5 : id = 5; · simp [normCell, TILE_SPAWN, TILE_GROUND, h5]
  by_cases h11 : id = 11; · simp [normCell, TILE_SPAWN, TILE_GROUND, h5, h11]
  by_cases h12 : id = 12; · simp [normCell, TILE_SPAWN, TILE_GROUND, h5, h11, h12]
  by_cases h10 : id = 10; · simp [normCell, TILE_SPAWN, TILE_GROUND, h5, h11, h12, h10]
  by_cases h24 : id = 24; · simp [normCell, TILE_SPAWN, TILE_GROUND, h5, h11, h12, h10, h24]
  by_cases h23 : id = 23; · simp [normCell, TILE_SPAWN, TILE_GROUND, h5, h11, h12, h10, h24, h23]
  by_cases h20 : id = 20; · simp [normCell, TILE_SPAWN, TILE_GROUND, h5, h11, h12, h10, h24, h23, h20]
  simp [normCell, TILE_SPAWN, TILE_GROUND, h5, h11, h12, h10, h24, h23, h20, normTail_cultists]

theorem normCell_ghosts (m : LevelMeta) (i : ℕ) (id : ℕ) :
    (normCell m i id).1.ghosts = if id = 24 then m.ghosts ++ [i] else m.ghosts := by
  by_cases h5 : id = 5; · simp [normCell, TILE_SPAWN, TILE_GROUND, h5]
  by_cases h11 : id = 11; · simp [normCell, TILE_SPAWN, TILE_GROUND, h5, h11]
  by_cases h12 : id = 12; · simp [normCell, TILE_SPAWN, TILE_GROUND, h5, h11, h12]
  by_cases h10 : id = 10; · simp [normCell, TILE_SPAWN, TILE_GROUND, h5, h11, h12, h10]
  by_cases h24 : id = 24; · simp [normCell, TILE_SPAWN, TILE_GROUND, h5, h11, h12, h10, h24]
  by_cases h23 : id = 23; · simp [normCell, TILE_SPAWN, TILE_GROUND, h5, h11, h12, h10, h24, h23]
  by_cases h20 : id = 20; · simp [normCell, TILE_SPAWN, TILE_GROUND, h5, h11, h12, h10, h24, h23, h20]
  simp [normCell, TILE_SPAWN, TILE_GROUND, h5, h11, h12, h10, h24, h23, h20, normTail_ghosts]

theorem normCell_slimes (m : LevelMeta) (i : ℕ) (id : ℕ) :
    (normCell m i id).1.slimes = if id = 23 then m.slimes ++ [i] else m.slimes := by
  by_cases h5 : id = 5; · simp [normCell, TILE_SPAWN, TILE_GROUND, h5]
  by_cases h11 : id = 11; · simp [normCell, TILE_SPAWN, TILE_GROUND, h5, h11]
  by_cases h12 : id = 12; · simp [normCell, TILE_SPAWN, TILE_GROUND, h5, h11, h12]
  by_cases h10 : id = 10; · simp [normCell, TILE_SPAWN, TILE_GROUND, h5, h11, h12, h10]
  by_cases h24 : id = 24; · simp [normCell, TILE_SPAWN, TILE_GROUND, h5, h11, h12, h10, h24]
  by_cases h23 : id = 23; · simp [normCell, TILE_SPAWN, TILE_GROUND, h5, h11, h12, h10, h24, h23]
  by_cases h20 : id = 20; · simp [normCell, TILE_SPAWN, TILE_GROUND, h5, h11, h12, h10, h24, h23, h20]
  simp [normCell, TILE_SPAWN, TILE_GROUND, h5, h11, h12, h10, h24, h23, h20, normTail_slimes]

theorem normGo_spawn (m : LevelMeta) (i : ℕ) (l : List ℕ) :
    (normGo m i l).1.spawn = lastD TILE_SPAWN i m.spawn l := by
  induction l generalizing m i with
  | nil => rfl
  | cons id rest ih =>
    simp only [normGo, lastD, ih, normCell_spawn, TILE_SPAWN]

theorem normGo_key (m : LevelMeta) (i : ℕ) (l : List ℕ) :
    (normGo m i l).1.key = lastD 81 i m.key l := by
  induction l generalizing m i with
  | nil => rfl
  | cons id rest ih =>
    simp only [normGo, lastD, ih, normCell_key]

theorem normGo_door (m : LevelMeta) (i : ℕ) (l : List ℕ) :
    (normGo m i l).1.door = lastD 55 i m.door l := by
  induction l generalizing m i with
  | nil => rfl
  | cons id rest ih =>
    simp only [normGo, lastD, ih, normCell_door]

theorem normGo_stairs (m : LevelMeta) (i : ℕ) (l : List ℕ) :
    (normGo m i l).1.stairs = lastD 48 i m.stairs l := by
  induction l generalizing m i with
  | nil => rfl
  | cons id rest ih =>
    simp only [normGo, lastD, ih, normCell_stairs]

theorem normGo_dog (m : LevelMeta) (i : ℕ) (l : List ℕ) :
    (normGo m i l).1.dog = lastD 20 i m.dog l := by
  induction l generalizing m i with
  | nil => rfl
  | cons id rest ih =>
    simp only [normGo, lastD, ih, normCell_dog]

theorem normGo_fire (m : LevelMeta) (i : ℕ) (l : List ℕ) :
    (normGo m i l).1.fire = m.fire := by
  induction l generalizing m i with
  | nil => rfl
  | cons id rest ih =>
    simp only [normGo, ih, normCell_fire]

theorem normGo_secret (m : LevelMeta) (i : ℕ) (l : List ℕ) :
    (normGo m i l).1.secret = m.secret := by
  induction l generalizing m i with
  | nil => rfl
  | cons id rest ih =>
    simp only [normGo, ih, normCell_secret]

theorem normGo_chests (m : LevelMeta) (i : ℕ) (l : List ℕ) :
    (normGo m i l).1.chests = m.chests ++ marksAux 52 i l := by
  induction l generalizing m i with
  | nil => simp [normGo, marksAux]
  | cons id rest ih =>
    simp only [normGo, marksAux, ih, normCell_chests]
    by_cases h : id = 52 <;> simp [h]

theorem normGo_skeletons (m : LevelMeta) (i : ℕ) (l : List ℕ) :
    (normGo m i l).1.skeletons = m.skeletons ++ marksAux 11 i l := by
  induction l generalizing m i with
  | nil => simp [normGo, marksAux]
  | cons id rest ih =>
    simp only [normGo, marksAux, ih, normCell_skeletons]
    by_cases h : id = 11 <;> simp [h]

theorem normGo_zombies (m : LevelMeta) (i : ℕ) (l : List ℕ) :
    (normGo m i l).1.zombies = m.zombies ++ marksAux 12 i l := by
  induction l generalizing m i with
  | nil => simp [normGo, marksAux]
  | cons id rest ih =>
    simp only [normGo, marksAux, ih, normCell_zombies]
    by_cases h : id = 12 <;> simp [h]

theorem normGo_cultists (m : LevelMeta) (i : ℕ) (l : List ℕ) :
    (normGo m i l).1.cultists = m.cultists ++ marksAux 10 i l := by
  induction l generalizing m i with
  | nil => simp [normGo, marksAux]
  | cons id rest ih =>
    simp only [normGo, marksAux, ih, normCell_cultists]
    by_cases h : id = 10 <;> simp [h]

theorem normGo_ghosts (m : LevelMeta) (i : ℕ) (l : List ℕ) :
    (normGo m i l).1.ghosts = m.ghosts ++ marksAux 24 i l := by
  induction l generalizing m i with
  | nil => simp [normGo, marksAux]
  | cons id rest ih =>
    simp only [normGo, marksAux, ih, normCell_ghosts]
    by_cases h : id = 24 <;> simp [h]

theorem normGo_slimes (m : LevelMeta) (i : ℕ) (l : List ℕ) :
    (normGo m i l).1.slimes = m.slimes ++ marksAux 23 i l := by
  induction l generalizing m i with
  | nil => simp [normGo, marksAux]
  | cons id rest ih =>
    simp only [normGo, marksAux, ih, normCell_slimes]
    by_cases h : id = 23 <;> simp [h]

theorem replaceFn_idem (id : ℕ) : replaceFn (replaceFn id) = replaceFn id := by
  simp only [replaceFn, TILE_SPAWN, TILE_GROUND]
  split_ifs <;> omega

theorem replaceFn_ne_marker (id : ℕ) (t : ℕ)
    (ht : t = 5 ∨ t = 11 ∨ t = 12 ∨ t = 10 ∨ t = 24 ∨ t = 23 ∨ t = 20) :
    replaceFn id ≠ t := by
  simp only [replaceFn, TILE_SPAWN, TILE_GROUND]
  split_ifs with hc <;> omega

theorem replaceFn_eq_iff (id : ℕ) (t : ℕ)
    (ht : ¬(t = 5 ∨ t = 11 ∨ t = 12 ∨ t = 10 ∨ t = 24 ∨ t = 23 ∨ t = 20))
    (ht16 : t ≠ 16) : replaceFn id = t ↔ id = t := by
  simp only [replaceFn, TILE_SPAWN, TILE_GROUND]
  split_ifs with hc <;> constructor <;> intro h2 <;> omega

theorem lastD_eq_self (t : ℕ) (i : ℕ) (d : ℤ) (l : List ℕ)
    (h : ∀ x ∈ l, x ≠ t) : lastD t i d l = d := by
  induction l generalizing i d with
  | nil => rfl
  | cons id rest ih =>
    simp only [lastD]
    rw [if_neg (h id (List.mem_cons_self id rest))]
    exact ih (i + 1) d fun x hx => h x (List.mem_cons_of_mem id hx)

theorem marksAux_eq_nil (t : ℕ) (i : ℕ) (l : List ℕ)
    (h : ∀ x ∈ l, x ≠ t) : marksAux t i l = [] := by
  induction l generalizing i with
  | nil => rfl
  | cons id rest ih =>
    simp only [marksAux]
    rw [if_neg (h id (List.mem_cons_self id rest))]
    simp only [List.nil_append]
    exact ih (i + 1) fun x hx => h x (List.mem_cons_of_mem id hx)

theorem lastD_map_replace (t : ℕ) (i : ℕ) (d : ℤ) (l : List ℕ)
    (heq : ∀ id, replaceFn id = t ↔ id = t) :
    lastD t i d (l.map replaceFn) = lastD t i d l := by
  induction l generalizing i d with
  | nil => rfl
  | cons id rest ih =>
    simp only [List.map_cons, lastD, heq]
    exact ih (i + 1) _

theorem marksAux_map_replace (t : ℕ) (i : ℕ) (l : List ℕ)
    (heq : ∀ id, replaceFn id = t ↔ id = t) :
    marksAux t i (l.map replaceFn) = marksAux t i l := by
  induction l generalizing i with
  | nil => rfl
  | cons id rest ih =>
    simp only [List.map_cons, marksAux, heq]
    rw [ih (i + 1)]

/-- C10: for every input map, the level loader returns `meta.fire = -1` and
`meta.secret = -1`: the second `id === 20` branch is unreachable because the
first `id === 20` branch always returns first, and no branch assigns
`meta.secret`. -/
theorem c10_dead_marker_branches (data : List ℕ) :
    (normalizeLevel data).1.fire = -1 ∧ (normalizeLevel data).1.secret = -1 :=
  ⟨by rw [normalizeLevel, normGo_fire]; rfl, by rw [normalizeLevel, normGo_secret]; rfl⟩

/-- C5: marker extraction is idempotent.  Normalization replaces exactly the
replaceable marker ids (spawn 5, enemies 11/12/10/24/23, dog 20) with ground
16; `LevelMeta` latches one index per singular marker (spawn/key/door/stairs,
the last occurrence) and a complete index list per plural marker
(enemies, chests); door/key/stairs/chest markers are recorded but NOT
replaced in the grid; re-running normalization on the normalized grid leaves
the grid unchanged and finds no replaceable marker (spawn and dog reset to
-1, enemy lists empty), while the unreplaced door/key/stairs/chest markers
are recorded again with the same indices. -/
theorem c5_marker_extraction_idempotent (data : List ℕ) :
    (normalizeLevel data).2 = data.map replaceFn ∧
    ((normalizeLevel data).1.spawn = lastD TILE_SPAWN 0 (-1) data ∧
     (normalizeLevel data).1.key = lastD 81 0 (-1) data ∧
     (normalizeLevel data).1.door = lastD 55 0 (-1) data ∧
     (normalizeLevel data).1.stairs = lastD 48 0 (-1) data) ∧
    ((normalizeLevel data).1.chests = marksAux 52 0 data ∧
     (normalizeLevel data).1.skeletons = marksAux 11 0 data ∧
     (normalizeLevel data).1.zombies = marksAux 12 0 data ∧
     (normalizeLevel data).1.cultists = marksAux 10 0 data ∧
     (normalizeLevel data).1.ghosts = marksAux 24 0 data ∧
     (normalizeLevel data).1.slimes = marksAux 23 0 data) ∧
    ((normalizeLevel ((normalizeLevel data).2)).2 = (normalizeLevel data).2 ∧
     (normalizeLevel ((normalizeLevel data).2)).1.spawn = -1 ∧
     (normalizeLevel ((normalizeLevel data).2)).1.dog = -1 ∧
     (normalizeLevel ((normalizeLevel data).2)).1.skeletons = [] ∧
     (normalizeLevel ((normalizeLevel data).2)).1.zombies = [] ∧
     (normalizeLevel ((normalizeLevel data).2)).1.cultists = [] ∧
     (normalizeLevel ((normalizeLevel data).2)).1.ghosts = [] ∧
     (normalizeLevel ((normalizeLevel data).2)).1.slimes = [] ∧
     (normalizeLevel ((normalizeLevel data).2)).1.key = (normalizeLevel data).1.key ∧
     (normalizeLevel ((normalizeLevel data).2)).1.door = (normalizeLevel data).1.door ∧
     (normalizeLevel ((normalizeLevel data).2)).1.stairs = (normalizeLevel data).1.stairs ∧
     (normalizeLevel ((normalizeLevel data).2)).1.chests = (normalizeLevel data).1.chests) := by
  have hgrid : ∀ l : List ℕ, (normalizeLevel l).2 = l.map replaceFn := fun l =>
    normGo_snd initMeta 0 l
  refine ⟨hgrid data, ⟨?_, ?_, ?_, ?_⟩, ⟨?_, ?_, ?_, ?_, ?_, ?_⟩, ?_, ?_, ?_, ?_, ?_, ?_, ?_, ?_, ?_, ?_, ?_, ?_⟩
  · rw [normalizeLevel, normGo_spawn]; rfl
  · rw [normalizeLevel, normGo_key]; rfl
  · rw [normalizeLevel, normGo_door]; rfl
  · rw [normalizeLevel, normGo_stairs]; rfl
  · rw [normalizeLevel, normGo_chests]; rfl
  · rw [normalizeLevel, normGo_skeletons]; rfl
  · rw [normalizeLevel, normGo_zombies]; rfl
  · rw [normalizeLevel, normGo_cultists]; rfl
  · rw [normalizeLevel, normGo_ghosts]; rfl
  · rw [normalizeLevel, normGo_slimes]; rfl
  · rw [hgrid, hgrid data, List.map_map]
    exact List.map_congr_left fun id _ => replaceFn_idem id
  · rw [normalizeLevel, normGo_spawn, hgrid data, TILE_SPAWN]
    exact lastD_eq_self 5 0 (-1) _ fun x hx =>
      (List.mem_map.mp hx).elim fun a ha => ha.2 ▸ replaceFn_ne_marker a 5 (by omega)
  · rw [normalizeLevel, normGo_dog, hgrid data]
    exact lastD_eq_self 20 0 (-1) _ fun x hx =>
      (List.mem_map.mp hx).elim fun a ha => ha.2 ▸ replaceFn_ne_marker a 20 (by omega)
  · rw [normalizeLevel, normGo_skeletons, hgrid data]
    exact marksAux_eq_nil 11 0 _ fun x hx =>
      (List.mem_map.mp hx).elim fun a ha => ha.2 ▸ replaceFn_ne_marker a 11 (by omega)
  · rw [normalizeLevel, normGo_zombies, hgrid data]
    exact marksAux_eq_nil 12 0 _ fun x hx =>
      (List.mem_map.mp hx).elim fun a ha => ha.2 ▸ replaceFn_ne_marker a 12 (by omega)
  · rw [normalizeLevel, normGo_cultists, hgrid data]
    exact marksAux_eq_nil 10 0 _ fun x hx =>
      (List.mem_map.mp hx).elim fun a ha => ha.2 ▸ replaceFn_ne_marker a 10 (by omega)
  · rw [normalizeLevel, normGo_ghosts, hgrid data]
    exact marksAux_eq_nil 24 0 _ fun x hx =>
      (List.mem_map.mp hx).elim fun a ha => ha.2 ▸ replaceFn_ne_marker a 24 (by omega)
  · rw [normalizeLevel, normGo_slimes, hgrid data]
    exact marksAux_eq_nil 23 0 _ fun x hx =>
      (List.mem_map.mp hx).elim fun a ha => ha.2 ▸ replaceFn_ne_marker a 23 (by omega)
  · rw [normalizeLevel, normalizeLevel, normGo_key, normGo_key, normGo_snd]
    exact lastD_map_replace 81 0 initMeta.key data fun id => replaceFn_eq_iff id 81 (by omega) (by omega)
  · rw [normalizeLevel, normalizeLevel, normGo_door, normGo_door, normGo_snd]
    exact lastD_map_replace 55 0 initMeta.door data fun id => replaceFn_eq_iff id 55 (by omega) (by omega)
  · rw [normalizeLevel, normalizeLevel, normGo_stairs, normGo_stairs, normGo_snd]
    exact lastD_map_replace 48 0 initMeta.stairs data fun id => replaceFn_eq_iff id 48 (by omega) (by omega)
  · rw [normalizeLevel, normalizeLevel, normGo_chests, normGo_chests, normGo_snd]
    simp only [initMeta, List.nil_append]
    exact marksAux_map_replace 52 0 data fun id => replaceFn_eq_iff id 52 (by omega) (by omega)

/-! ### Collision table and walkability graph
(`levelLoader`, `src/js/views/game.js` 118-182) -/

/-- The `collisionMap` object literal: tile id to 4-bit directional mask.
`none` models a key that is absent from the object. -/
def collisionMap : ℕ → Option ℕ
  | 43 => some 0b0100
  | 45 => some 0b0100
  | 46 => some 0b0001
  | 59 => some 0b1000
  | 18 => some 0b0100
  | 55 => some 0b0100
  | 15 => some 0b0001
  | 2 => some 0b1010
  | 30 => some 0b1010
  | 31 => some 0b0101
  | 57 => some 0b1011
  | 4 => some 0b1110
  | 32 => some 0b1110
  | 58 => some 0b1110
  | 28 => some 0b1111
  | _ => none

/-- The JavaScript lookup `collisionMap[id]` as used in the bit tests:
`undefined & m` is `0`, so an absent id behaves as mask `0`. -/
def maskOf (id : ℕ) : ℕ := (collisionMap id).getD 0

/-- The vertical edge test of the builder: `!(c1 & 0b1000) && !(c2 & 0b0010)`
for `c1 = collisionMap[data[i]]`, `c2 = collisionMap[data[i - width]]`. -/
def vertPass (data : List ℕ) (width i : ℕ) : Prop :=
  maskOf (data.getD i 0) &&& 0b1000 = 0 ∧ maskOf (data.getD (i - width) 0) &&& 0b0010 = 0

/-- The horizontal edge test: `!(c1 & 0b0001) && !(c2 & 0b0100)` for
`c1 = collisionMap[data[i]]`, `c2 = collisionMap[data[i - 1]]`. -/
def horPass (data : List ℕ) (i : ℕ) : Prop :=
  maskOf (data.getD i 0) &&& 0b0001 = 0 ∧ maskOf (data.getD (i - 1) 0) &&& 0b0100 = 0

instance (data : List ℕ) (width i : ℕ) : Decidable (vertPass data width i) := by
  unfold vertPass; infer_instance

instance (data : List ℕ) (i : ℕ) : Decidable (horPass data i) := by
  unfold horPass; infer_instance

/-- Edge insertion `node.add(node2)`: mutual insertion into both neighbour sets.  The graph
is an adjacency list indexed by cell index; each `GraphNode`'s neighbour set
is the `Finset` of neighbouring cell indices (JS `Set` membership is object
identity, and there is exactly one node per cell index). -/
def addEdge (adj : List (Finset ℕ)) (a b : ℕ) : List (Finset ℕ) :=
  let adj := adj.set a (insert b (adj.getD a ∅))
  adj.set b (insert a (adj.getD b ∅))

/-- The body of the builder's `graph.map((node, i) => ...)` callback:
the `i - width >= 0` vertical test, then the `i % width !== 0` horizontal
test. -/
def buildStep (data : List ℕ) (width : ℕ) (adj : List (Finset ℕ)) (i : ℕ) :
    List (Finset ℕ) :=
  let adj1 := if width ≤ i ∧ vertPass data width i then addEdge adj i (i - width) else adj
  if i % width ≠ 0 ∧ horPass data i then addEdge adj1 i (i - 1) else adj1

/-- The whole builder loop: nodes start with empty neighbour sets, then every
cell index is processed in order. -/
def buildAdj (data : List ℕ) (width : ℕ) : List (Finset ℕ) :=
  (List.range data.length).foldl (buildStep data width) (List.replicate data.length ∅)

/-- The unordered pair inserted when the builder processes source index `s`,
described as a predicate on the two endpoints. -/
def pairAdded (data : List ℕ) (width s i j : ℕ) : Prop :=
  (width ≤ s ∧ vertPass data width s ∧
    ((i = s ∧ j = s - width) ∨ (j = s ∧ i = s - width))) ∨
  (s % width ≠ 0 ∧ horPass data s ∧
    ((i = s ∧ j = s - 1) ∨ (j = s ∧ i = s - 1)))

theorem length_addEdge (adj : List (Finset ℕ)) (a b : ℕ) :
    (addEdge adj a b).length = adj.length := by
  simp [addEdge]

theorem length_buildStep (data : List ℕ) (width : ℕ) (adj : List (Finset ℕ)) (i : ℕ) :
    (buildStep data width adj i).length = adj.length := by
  unfold buildStep
  split_ifs <;> simp [length_addEdge]

theorem length_foldl_buildStep (data : List ℕ) (width : ℕ) (l : List ℕ)
    (adj : List (Finset ℕ)) :
    (l.foldl (buildStep data width) adj).length = adj.length := by
  induction l generalizing adj with
  | nil => rfl
  | cons s rest ih => rw [List.foldl_cons, ih, length_buildStep]

theorem getD_replicate_empty (n i : ℕ) :
    (List.replicate n (∅ : Finset ℕ)).getD i ∅ = ∅ := by
  rw [List.getD_eq_getElem?_getD, List.getElem?_replicate]
  split_ifs <;> rfl

theorem mem_addEdge (adj : List (Finset ℕ)) (a b : ℕ)
    (ha : a < adj.length) (hb : b < adj.length) (hab : a ≠ b) (i j : ℕ) :
    j ∈ (addEdge adj a b).getD i ∅ ↔
      j ∈ adj.getD i ∅ ∨ (i = a ∧ j = b) ∨ (i = b ∧ j = a) := by
  unfold addEdge
  simp only [List.getD_eq_getElem?_getD]
  by_cases hia : i = a
  · subst hia
    rw [List.getElem?_set_ne (Ne.symm hab), List.getElem?_set_eq_of_lt _ ha]
    simp [Finset.mem_insert, hab]
    tauto
  · by_cases hib : i = b
    · subst hib
      rw [List.getElem?_set_eq_of_lt _ (by simpa using hb),
        List.getElem?_set_ne hab]
      simp [Finset.mem_insert, hia]
      tauto
    · rw [List.getElem?_set_ne (fun h => hib h.symm),
        List.getElem?_set_ne (fun h => hia h.symm)]
      simp [hia, hib]

theorem mem_buildStep (data : List ℕ) (width : ℕ) (hw : 0 < width)
    (adj : List (Finset ℕ)) (s : ℕ) (hs : s < adj.length) (i j : ℕ) :
    j ∈ (buildStep data width adj s).getD i ∅ ↔
      j ∈ adj.getD i ∅ ∨ pairAdded data width s i j := by
  unfold buildStep pairAdded
  by_cases hv : width ≤ s ∧ vertPass data width s <;>
    by_cases hh : s % width ≠ 0 ∧ horPass data s
  · have hsm1 : s - 1 < adj.length := by omega
    have hsw : s - width < adj.length := by omega
    have hns : s ≠ s - width := by omega
    have hs1 : s ≠ s - 1 := by
      have : s ≠ 0 := fun h0 => hh.1 (by simp [h0])
      omega
    rw [if_pos hh, if_pos hv,
      mem_addEdge _ _ _ (by simp [length_addEdge]; omega) (by simp [length_addEdge]; omega) hs1,
      mem_addEdge _ _ _ hs hsw hns]
    tauto
  · have hsw : s - width < adj.length := by omega
    have hns : s ≠ s - width := by omega
    rw [if_neg hh, if_pos hv, mem_addEdge _ _ _ hs hsw hns]
    tauto
  · have hs1 : s ≠ s - 1 := by
      have : s ≠ 0 := fun h0 => hh.1 (by simp [h0])
      omega
    have hsm1 : s - 1 < adj.length := by omega
    rw [if_pos hh, if_neg hv, mem_addEdge _ _ _ hs hsm1 hs1]
    tauto
  · rw [if_neg hh, if_neg hv]
    tauto

theorem mem_buildAdj_aux (data : List ℕ) (width : ℕ) (hw : 0 < width) (k : ℕ)
    (hk : k ≤ data.length) (i j : ℕ) :
    j ∈ ((List.range k).foldl (buildStep data width)
        (List.replicate data.length ∅)).getD i ∅ ↔
      ∃ s, s < k ∧ pairAdded data width s i j := by
  induction k with
  | zero =>
    simp [getD_replicate_empty]
  | succ k ih =>
    rw [List.range_succ, List.foldl_append, List.foldl_cons, List.foldl_nil,
      mem_buildStep data width hw _ k
        (by rw [length_foldl_buildStep, List.length_replicate]; omega),
      ih (by omega)]
    constructor
    · rintro (⟨s, hs, hp⟩ | hp)
      · exact ⟨s, by omega, hp⟩
      · exact ⟨k, by omega, hp⟩
    · rintro ⟨s, hs, hp⟩
      rcases Nat.lt_succ_iff_lt_or_eq.mp hs with h | rfl
      · exact Or.inl ⟨s, h, hp⟩
      · exact Or.inr hp

theorem mem_buildAdj (data : List ℕ) (width : ℕ) (hw : 0 < width) (i j : ℕ) :
    j ∈ (buildAdj data width).getD i ∅ ↔
      ∃ s, s < data.length ∧ pairAdded data width s i j :=
  mem_buildAdj_aux data width hw data.length le_rfl i j

theorem pairAdded_bounds (data : List ℕ) (width s i j : ℕ)
    (hs : s < data.length) (hp : pairAdded data width s i j) :
    i < data.length ∧ j < data.length := by
  rcases hp with ⟨_, _, (⟨rfl, rfl⟩ | ⟨rfl, rfl⟩)⟩ | ⟨_, _, (⟨rfl, rfl⟩ | ⟨rfl, rfl⟩)⟩ <;>
    omega

theorem pairAdded_symm (data : List ℕ) (width s i j : ℕ) :
    pairAdded data width s i j ↔ pairAdded data width s j i := by
  unfold pairAdded
  tauto

theorem mem_buildAdj_lt (data : List ℕ) (width : ℕ) (hw : 0 < width) (i j : ℕ)
    (h : j ∈ (buildAdj data width).getD i ∅) :
    i < data.length ∧ j < data.length := by
  obtain ⟨s, hs, hp⟩ := (mem_buildAdj data width hw i j).mp h
  exact pairAdded_bounds data width s i j hs hp

theorem vert_edge_iff (data : List ℕ) (width : ℕ) (hw : 0 < width) (i : ℕ)
    (hi : i < data.length) (hiw : width ≤ i) :
    (i - width) ∈ (buildAdj data width).getD i ∅ ↔ vertPass data width i := by
  rw [mem_buildAdj data width hw]
  constructor
  · rintro ⟨s, hs, hp⟩
    rcases hp with ⟨hws, hv, (⟨h1, h2⟩ | ⟨h1, h2⟩)⟩ | ⟨hm, hh, (⟨h1, h2⟩ | ⟨h1, h2⟩)⟩
    · subst h1; exact hv
    · omega
    · subst h1
      have hw1 : width = 1 := by omega
      exact (hm (by rw [hw1]; exact Nat.mod_one i)).elim
    · omega
  · intro hv
    exact ⟨i, hi, Or.inl ⟨hiw, hv, Or.inl ⟨rfl, rfl⟩⟩⟩

theorem hor_edge_iff (data : List ℕ) (width : ℕ) (hw : 0 < width) (i : ℕ)
    (hi : i < data.length) (him : i % width ≠ 0) :
    (i - 1) ∈ (buildAdj data width).getD i ∅ ↔ horPass data i := by
  have hi1 : i ≠ 0 := fun h => him (by simp [h])
  rw [mem_buildAdj data width hw]
  constructor
  · rintro ⟨s, hs, hp⟩
    rcases hp with ⟨hws, hv, (⟨h1, h2⟩ | ⟨h1, h2⟩)⟩ | ⟨hm, hh, (⟨h1, h2⟩ | ⟨h1, h2⟩)⟩
    · subst h1
      have hw1 : width = 1 := by omega
      exact (him (by rw [hw1]; exact Nat.mod_one i)).elim
    · omega
    · subst h1; exact hh
    · omega
  · intro hh
    exact ⟨i, hi, Or.inr ⟨him, hh, Or.inl ⟨rfl, rfl⟩⟩⟩

/-- C1: for every tested cell pair, an edge exists iff neither relevant
directional bit is set: vertical pair `(i, i-width)` iff bit `0b1000` of
cell `i` and bit `0b0010` of cell `i-width` are both clear; horizontal pair
`(i, i-1)` iff bit `0b0001` of cell `i` and bit `0b0100` of cell `i-1` are
both clear; a tile id absent from the collision table behaves as mask 0. -/
theorem c1_edge_validity (data : List ℕ) (width : ℕ) (hw : 0 < width) (i : ℕ)
    (hi : i < data.length) :
    (width ≤ i →
      ((i - width) ∈ (buildAdj data width).getD i ∅ ↔
        maskOf (data.getD i 0) &&& 0b1000 = 0 ∧
        maskOf (data.getD (i - width) 0) &&& 0b0010 = 0)) ∧
    (i % width ≠ 0 →
      ((i - 1) ∈ (buildAdj data width).getD i ∅ ↔
        maskOf (data.getD i 0) &&& 0b0001 = 0 ∧
        maskOf (data.getD (i - 1) 0) &&& 0b0100 = 0)) ∧
    (∀ id, collisionMap id = none → maskOf id = 0) :=
  ⟨fun hiw => vert_edge_iff data width hw i hi hiw,
   fun him => hor_edge_iff data width hw i hi him,
   fun _ h => by simp [maskOf, h]⟩

theorem c1_witness :
    (3 - 2) ∈ (buildAdj [16, 16, 16, 16] 2).getD 3 ∅ :=
  ((c1_edge_validity [16, 16, 16, 16] 2 (by norm_num) 3 (by norm_num)).1
    (by norm_num)).mpr (by decide)

/-- C2: the walkability graph is symmetric: `j` is a neighbour of `i` iff
`i` is a neighbour of `j`, because `GraphNode.add` inserts both directions
simultaneously. -/
theorem c2_graph_symmetric (data : List ℕ) (width : ℕ) (hw : 0 < width) (i j : ℕ) :
    j ∈ (buildAdj data width).getD i ∅ ↔ i ∈ (buildAdj data width).getD j ∅ := by
  rw [mem_buildAdj data width hw, mem_buildAdj data width hw]
  exact exists_congr fun s => and_congr_right fun _ => pairAdded_symm data width s i j

theorem c2_witness :
    1 ∈ (buildAdj [16, 16, 16, 16] 2).getD 0 ∅ ↔
      0 ∈ (buildAdj [16, 16, 16, 16] 2).getD 1 ∅ :=
  c2_graph_symmetric [16, 16, 16, 16] 2 (by norm_num) 0 1

/-- C8: on the 4x4 grid of ground tiles (id 16) with tile id 5 at index 5,
normalization records `meta.spawn = 5` and replaces cell 5 with id 16, and
node 5 of the graph built from the normalized grid has exactly the
neighbours {1, 4, 6, 9}: no self-edge and no wraparound edges. -/
theorem c8_scenario_4x4 :
    (normalizeLevel [16, 16, 16, 16, 16, 5, 16, 16, 16, 16, 16, 16, 16, 16, 16, 16]).1.spawn = 5 ∧
    (normalizeLevel [16, 16, 16, 16, 16, 5, 16, 16, 16, 16, 16, 16, 16, 16, 16, 16]).2 =
      List.replicate 16 16 ∧
    (buildAdj
      (normalizeLevel [16, 16, 16, 16, 16, 5, 16, 16, 16, 16, 16, 16, 16, 16, 16, 16]).2
      4).getD 5 ∅ = {1, 4, 6, 9} := by
  decide

/-! ### Entity movement (`src/unnamed/part_003`, driven by
`src/unnamed/part_006`) -/

/-- Entity state: `object.x`, `object.y` (pixel position of the sprite) and
the axis deltas `this.x`, `this.y`. -/
structure EState where
  px : ℚ
  py : ℚ
  dx : ℚ
  dy : ℚ
deriving DecidableEq

/-- JavaScript `q ^ 0`: truncation toward zero (for the magnitudes reached
here). -/
def jsTrunc (q : ℚ) : ℤ := if 0 ≤ q then ⌊q⌋ else -⌊-q⌋

/-- One `update(delta, false)` call of the `part_003` entity: advance the
sprite by `delta * GAME_SPEED * (width * 2 - ERROR_CORRECTION)` per axis
delta, decay each delta toward zero clamped at zero, and when both deltas
are zero snap the sprite position with `Math.round`. -/
def updFrame (dt : ℚ) (s : EState) : EState :=
  let px := s.px + s.dx * dt * GAME_SPEED * (TILE * 2 - ERROR_CORRECTION)
  let py := s.py + s.dy * dt * GAME_SPEED * (TILE * 2 - ERROR_CORRECTION)
  let dx1 := if 0 < s.dx then max (s.dx - dt * GAME_SPEED) 0 else s.dx
  let dx2 := if dx1 < 0 then min (dx1 + dt * GAME_SPEED) 0 else dx1
  let dy1 := if 0 < s.dy then max (s.dy - dt * GAME_SPEED) 0 else s.dy
  let dy2 := if dy1 < 0 then min (dy1 + dt * GAME_SPEED) 0 else dy1
  if dx2 = 0 ∧ dy2 = 0 then
    ⟨((round px : ℤ) : ℚ), ((round py : ℤ) : ℚ), dx2, dy2⟩
  else ⟨px, py, dx2, dy2⟩

/-- The `moveUpdate` block of `update`: sample the requested direction into
the axis deltas, compute the current grid cell from the truncated pixel
position, and cancel both deltas unless some neighbour of the current cell
sits at `(x + dx, y + dy)`. -/
def commitPart (adj : List (Finset ℕ)) (width : ℕ) (d : ℕ) (s : EState) : EState :=
  let dy : ℚ := if d = DIRECTION_UP then -1 else if d = DIRECTION_DOWN then 1 else s.dy
  let dx : ℚ := if d = DIRECTION_LEFT then -1 else if d = DIRECTION_RIGHT then 1 else s.dx
  let x : ℤ := jsTrunc (s.px / TILE)
  let y : ℤ := jsTrunc (s.py / TILE)
  let i : ℤ := y * (width : ℤ) + x
  if ∃ j ∈ adj.getD i.toNat ∅,
      ((j % width : ℕ) : ℚ) = (x : ℚ) + dx ∧ ((j / width : ℕ) : ℚ) = (y : ℚ) + dy
  then ⟨s.px, s.py, dx, dy⟩
  else ⟨s.px, s.py, 0, 0⟩

/-- One `update(delta, true)` call: the commit followed by the frame body. -/
def updateTick (adj : List (Finset ℕ)) (width : ℕ) (d : ℕ) (s : EState) : EState :=
  updFrame (1 / 60) (commitPart adj width d s)

/-- One full move-tick window under the fixed-step driver of `part_006`
(`delta = 1/60`, `GAME_SPEED = 2`): the committing frame followed by the 29
plain frames until the next tick. -/
def moveWindow (adj : List (Finset ℕ)) (width : ℕ) (d : ℕ) (s : EState) : EState :=
  (updFrame (1 / 60))^[29] (updateTick adj width d s)

/-- The rest state of an entity standing on cell `i`
(`indexToRenderedXY`). -/
def aligned (width i : ℕ) : EState :=
  ⟨TILE * ((i % width : ℕ) : ℚ), TILE * ((i / width : ℕ) : ℚ), 0, 0⟩

/-- Cell-level abstraction of one move-tick window, to be proved equivalent
to `moveWindow` on aligned states: move to the neighbour at the requested
offset if the graph has one, else stay. -/
def tickCell (adj : List (Finset ℕ)) (width : ℕ) (i : ℕ) (d : ℕ) : ℕ :=
  let dy : ℤ := if d = DIRECTION_UP then -1 else if d = DIRECTION_DOWN then 1 else 0
  let dx : ℤ := if d = DIRECTION_LEFT then -1 else if d = DIRECTION_RIGHT then 1 else 0
  let tx : ℤ := ((i % width : ℕ) : ℤ) + dx
  let ty : ℤ := ((i / width : ℕ) : ℤ) + dy
  if ∃ j ∈ adj.getD i ∅, ((j % width : ℕ) : ℤ) = tx ∧ ((j / width : ℕ) : ℤ) = ty
  then (ty * (width : ℤ) + tx).toNat
  else i

/-- Iterated cell-level windows over a list of direction requests. -/
def runCell (adj : List (Finset ℕ)) (width : ℕ) (i : ℕ) (ds : List ℕ) : ℕ :=
  ds.foldl (tickCell adj width) i

/-- Iterated entity-level windows over a list of direction requests. -/
def simRun (adj : List (Finset ℕ)) (width : ℕ) (s : EState) (ds : List ℕ) : EState :=
  ds.foldl (fun s d => moveWindow adj width d s) s

/-- Reachability along graph edges. -/
def Reach (adj : List (Finset ℕ)) : ℕ → ℕ → Prop :=
  Relation.ReflTransGen fun a b => b ∈ adj.getD a ∅

theorem updFrame_zero (dt : ℚ) (a b : ℤ) :
    updFrame dt ⟨(a : ℚ), (b : ℚ), 0, 0⟩ = ⟨(a : ℚ), (b : ℚ), 0, 0⟩ := by
  simp [updFrame, round_intCast]

theorem updFrame_zero_iter (dt : ℚ) (n : ℕ) (a b : ℤ) :
    (updFrame dt)^[n] ⟨(a : ℚ), (b : ℚ), 0, 0⟩ = ⟨(a : ℚ), (b : ℚ), 0, 0⟩ :=
  Function.iterate_fixed (updFrame_zero dt a b) n

theorem updFrame_pos_big (p b q : ℚ) (hq : 1 / 30 < q) :
    updFrame (1 / 60) ⟨p, b, q, 0⟩ =
      ⟨p + q * (1 / 60) * GAME_SPEED * (TILE * 2 - ERROR_CORRECTION), b,
        q - 1 / 30, 0⟩ := by
  have h0 : (0 : ℚ) < q := by linarith
  have hmax : max (q - (1 / 60) * GAME_SPEED) 0 = q - 1 / 30 := by
    rw [GAME_SPEED, max_eq_left (by linarith)]
    ring
  have hne : q - 1 / 30 ≠ 0 := by intro h; rw [sub_eq_zero] at h; linarith [hq, h]
  simp only [updFrame, if_pos h0, hmax]
  rw [if_neg (by linarith : ¬(q - 1 / 30) < 0), if_neg]
  · simp
  · simp only [lt_irrefl, if_false]
    intro hcon
    exact hne hcon.1

theorem updFrame_pos_last (p b : ℚ) :
    updFrame (1 / 60) ⟨p, b, 1 / 30, 0⟩ =
      ⟨((round (p + (1 / 30) * (1 / 60) * GAME_SPEED * (TILE * 2 - ERROR_CORRECTION)) : ℤ) : ℚ),
        ((round b : ℤ) : ℚ), 0, 0⟩ := by
  have h0 : (0 : ℚ) < 1 / 30 := by norm_num
  have hmax : max ((1 : ℚ) / 30 - (1 / 60) * GAME_SPEED) 0 = 0 := by
    rw [GAME_SPEED]; norm_num
  simp only [updFrame, if_pos h0, hmax]
  norm_num

theorem updFrame_neg_big (p b q : ℚ) (hq : q < -(1 / 30)) :
    updFrame (1 / 60) ⟨p, b, q, 0⟩ =
      ⟨p + q * (1 / 60) * GAME_SPEED * (TILE * 2 - ERROR_CORRECTION), b,
        q + 1 / 30, 0⟩ := by
  have h0 : ¬(0 : ℚ) < q := by linarith
  have hmin : min (q + (1 / 60) * GAME_SPEED) 0 = q + 1 / 30 := by
    rw [GAME_SPEED, min_eq_left (by linarith)]
    ring
  have hne : q + 1 / 30 ≠ 0 := by intro h; linarith [hq, add_eq_zero_iff_eq_neg.mp h]
  simp only [updFrame, if_neg h0]
  rw [if_pos (by linarith : q < 0), hmin, if_neg]
  · simp
  · simp only [lt_irrefl, if_false]
    intro hcon
    exact hne hcon.1

theorem updFrame_neg_last (p b : ℚ) :
    updFrame (1 / 60) ⟨p, b, -(1 / 30), 0⟩ =
      ⟨((round (p + (-(1 / 30)) * (1 / 60) * GAME_SPEED * (TILE * 2 - ERROR_CORRECTION)) : ℤ) : ℚ),
        ((round b : ℤ) : ℚ), 0, 0⟩ := by
  have h0 : ¬(0 : ℚ) < -(1 / 30) := by norm_num
  have hmin : min (-(1 : ℚ) / 30 + (1 / 60) * GAME_SPEED) 0 = 0 := by
    rw [GAME_SPEED]; norm_num
  simp only [updFrame, if_neg h0]
  norm_num [GAME_SPEED]

theorem settleX_pos : ∀ (j : ℕ), 1 ≤ j → ∀ (p b : ℚ),
    (updFrame (1 / 60))^[j] ⟨p, b, (j : ℚ) / 30, 0⟩ =
      ⟨((round (p + (j : ℚ) * ((j : ℚ) + 1) / 1800 * (TILE * 2 - ERROR_CORRECTION)) : ℤ) : ℚ),
        ((round b : ℤ) : ℚ), 0, 0⟩ := by
  intro j
  induction j with
  | zero => omega
  | succ j ih =>
    intro _ p b
    rcases Nat.eq_zero_or_pos j with rfl | hjpos
    · rw [Function.iterate_one]
      have harg : ((0 : ℕ) + 1 : ℚ) = 1 := by norm_num
      have h1 : ((Nat.succ 0 : ℕ) : ℚ) / 30 = 1 / 30 := by norm_num
      rw [h1, updFrame_pos_last]
      have : p + 1 / 30 * (1 / 60) * GAME_SPEED * (TILE * 2 - ERROR_CORRECTION) =
          p + ((Nat.succ 0 : ℕ) : ℚ) * (((Nat.succ 0 : ℕ) : ℚ) + 1) / 1800 *
            (TILE * 2 - ERROR_CORRECTION) := by
        rw [GAME_SPEED]; push_cast; ring
      rw [this]
    · have hq : (1 : ℚ) / 30 < ((j + 1 : ℕ) : ℚ) / 30 := by
        have : (1 : ℚ) < ((j + 1 : ℕ) : ℚ) := by
          push_cast; exact_mod_cast by omega
        linarith
      rw [Function.iterate_succ_apply]
      have hstep := updFrame_pos_big p b (((j + 1 : ℕ) : ℚ) / 30) hq
      have hdx : ((j + 1 : ℕ) : ℚ) / 30 - 1 / 30 = (j : ℚ) / 30 := by push_cast; ring
      rw [show (((Nat.succ j : ℕ) : ℚ) / 30) = ((j + 1 : ℕ) : ℚ) / 30 by push_cast; ring,
        hstep, hdx, ih hjpos]
      have : p + ((j + 1 : ℕ) : ℚ) / 30 * (1 / 60) * GAME_SPEED * (TILE * 2 - ERROR_CORRECTION) +
            (j : ℚ) * ((j : ℚ) + 1) / 1800 * (TILE * 2 - ERROR_CORRECTION) =
          p + ((Nat.succ j : ℕ) : ℚ) * (((Nat.succ j : ℕ) : ℚ) + 1) / 1800 *
            (TILE * 2 - ERROR_CORRECTION) := by
        rw [GAME_SPEED]; push_cast; ring
      rw [this]

theorem settleX_neg : ∀ (j : ℕ), 1 ≤ j → ∀ (p b : ℚ),
    (updFrame (1 / 60))^[j] ⟨p, b, -((j : ℚ) / 30), 0⟩ =
      ⟨((round (p - (j : ℚ) * ((j : ℚ) + 1) / 1800 * (TILE * 2 - ERROR_CORRECTION)) : ℤ) : ℚ),
        ((round b : ℤ) : ℚ), 0, 0⟩ := by
  intro j
  induction j with
  | zero => omega
  | succ j ih =>
    intro _ p b
    rcases Nat.eq_zero_or_pos j with rfl | hjpos
    · rw [Function.iterate_one]
      have h1 : -(((Nat.succ 0 : ℕ) : ℚ) / 30) = -(1 / 30) := by norm_num
      rw [h1, updFrame_neg_last]
      have : p + -(1 / 30) * (1 / 60) * GAME_SPEED * (TILE * 2 - ERROR_CORRECTION) =
          p - ((Nat.succ 0 : ℕ) : ℚ) * (((Nat.succ 0 : ℕ) : ℚ) + 1) / 1800 *
            (TILE * 2 - ERROR_CORRECTION) := by
        rw [GAME_SPEED]; push_cast; ring
      rw [this]
    · have hq : -(((j + 1 : ℕ) : ℚ) / 30) < -(1 / 30) := by
        have : (1 : ℚ) < ((j + 1 : ℕ) : ℚ) := by
          push_cast; exact_mod_cast by omega
        linarith
      rw [Function.iterate_succ_apply]
      have hstep := updFrame_neg_big p b (-(((j + 1 : ℕ) : ℚ) / 30)) hq
      have hdx : -(((j + 1 : ℕ) : ℚ) / 30) + 1 / 30 = -((j : ℚ) / 30) := by push_cast; ring
      rw [show -(((Nat.succ j : ℕ) : ℚ) / 30) = -(((j + 1 : ℕ) : ℚ) / 30) by push_cast; ring,
        hstep, hdx, ih hjpos]
      have : p + -(((j + 1 : ℕ) : ℚ) / 30) * (1 / 60) * GAME_SPEED *
              (TILE * 2 - ERROR_CORRECTION) -
            (j : ℚ) * ((j : ℚ) + 1) / 1800 * (TILE * 2 - ERROR_CORRECTION) =
          p - ((Nat.succ j : ℕ) : ℚ) * (((Nat.succ j : ℕ) : ℚ) + 1) / 1800 *
            (TILE * 2 - ERROR_CORRECTION) := by
        rw [GAME_SPEED]; push_cast; ring
      rw [this]

theorem updFrameY_pos_big (p b q : ℚ) (hq : 1 / 30 < q) :
    updFrame (1 / 60) ⟨p, b, 0, q⟩ =
      ⟨p, b + q * (1 / 60) * GAME_SPEED * (TILE * 2 - ERROR_CORRECTION),
        0, q - 1 / 30⟩ := by
  have h0 : (0 : ℚ) < q := by linarith
  have hmax : max (q - (1 / 60) * GAME_SPEED) 0 = q - 1 / 30 := by
    rw [GAME_SPEED, max_eq_left (by linarith)]
    ring
  have hne : q - 1 / 30 ≠ 0 := by intro h; rw [sub_eq_zero] at h; linarith [hq, h]
  simp only [updFrame, if_pos h0, hmax]
  rw [if_neg (by norm_num : ¬(0 : ℚ) < 0), if_neg (by norm_num : ¬(0 : ℚ) < 0),
    if_neg (by linarith : ¬(q - 1 / 30) < 0), if_neg]
  · simp
  · intro hcon
    exact hne hcon.2

theorem updFrameY_pos_last (p b : ℚ) :
    updFrame (1 / 60) ⟨p, b, 0, 1 / 30⟩ =
      ⟨((round p : ℤ) : ℚ),
        ((round (b + (1 / 30) * (1 / 60) * GAME_SPEED * (TILE * 2 - ERROR_CORRECTION)) : ℤ) : ℚ),
        0, 0⟩ := by
  have h0 : (0 : ℚ) < 1 / 30 := by norm_num
  have hmax : max ((1 : ℚ) / 30 - (1 / 60) * GAME_SPEED) 0 = 0 := by
    rw [GAME_SPEED]; norm_num
  simp only [updFrame, if_pos h0, hmax]
  norm_num

theorem updFrameY_neg_big (p b q : ℚ) (hq : q < -(1 / 30)) :
    updFrame (1 / 60) ⟨p, b, 0, q⟩ =
      ⟨p, b + q * (1 / 60) * GAME_SPEED * (TILE * 2 - ERROR_CORRECTION),
        0, q + 1 / 30⟩ := by
  have h0 : ¬(0 : ℚ) < q := by linarith
  have hmin : min (q + (1 / 60) * GAME_SPEED) 0 = q + 1 / 30 := by
    rw [GAME_SPEED, min_eq_left (by linarith)]
    ring
  have hne : q + 1 / 30 ≠ 0 := by intro h; linarith [hq, add_eq_zero_iff_eq_neg.mp h]
  simp only [updFrame, if_neg h0]
  rw [if_neg (by norm_num : ¬(0 : ℚ) < 0), if_neg (by norm_num : ¬(0 : ℚ) < 0),
    if_pos (by linarith : q < 0), hmin, if_neg]
  · simp
  · intro hcon
    exact hne hcon.2

theorem updFrameY_neg_last (p b : ℚ) :
    updFrame (1 / 60) ⟨p, b, 0, -(1 / 30)⟩ =
      ⟨((round p : ℤ) : ℚ),
        ((round (b + (-(1 / 30)) * (1 / 60) * GAME_SPEED * (TILE * 2 - ERROR_CORRECTION)) : ℤ) : ℚ),
        0, 0⟩ := by
  have h0 : ¬(0 : ℚ) < -(1 / 30) := by norm_num
  simp only [updFrame, if_neg h0]
  norm_num [GAME_SPEED]

theorem settleY_pos : ∀ (j : ℕ), 1 ≤ j → ∀ (p b : ℚ),
    (updFrame (1 / 60))^[j] ⟨p, b, 0, (j : ℚ) / 30⟩ =
      ⟨((round p : ℤ) : ℚ),
        ((round (b + (j : ℚ) * ((j : ℚ) + 1) / 1800 * (TILE * 2 - ERROR_CORRECTION)) : ℤ) : ℚ),
        0, 0⟩ := by
  intro j
  induction j with
  | zero => omega
  | succ j ih =>
    intro _ p b
    rcases Nat.eq_zero_or_pos j with rfl | hjpos
    · rw [Function.iterate_one]
      have h1 : ((Nat.succ 0 : ℕ) : ℚ) / 30 = 1 / 30 := by norm_num
      rw [h1, updFrameY_pos_last]
      have : b + 1 / 30 * (1 / 60) * GAME_SPEED * (TILE * 2 - ERROR_CORRECTION) =
          b + ((Nat.succ 0 : ℕ) : ℚ) * (((Nat.succ 0 : ℕ) : ℚ) + 1) / 1800 *
            (TILE * 2 - ERROR_CORRECTION) := by
        rw [GAME_SPEED]; push_cast; ring
      rw [this]
    · have hq : (1 : ℚ) / 30 < ((j + 1 : ℕ) : ℚ) / 30 := by
        have : (1 : ℚ) < ((j + 1 : ℕ) : ℚ) := by
          push_cast; exact_mod_cast by omega
        linarith
      rw [Function.iterate_succ_apply]
      have hstep := updFrameY_pos_big p b (((j + 1 : ℕ) : ℚ) / 30) hq
      have hdy : ((j + 1 : ℕ) : ℚ) / 30 - 1 / 30 = (j : ℚ) / 30 := by push_cast; ring
      rw [show (((Nat.succ j : ℕ) : ℚ) / 30) = ((j + 1 : ℕ) : ℚ) / 30 by push_cast; ring,
        hstep, hdy, ih hjpos]
      have : b + ((j + 1 : ℕ) : ℚ) / 30 * (1 / 60) * GAME_SPEED * (TILE * 2 - ERROR_CORRECTION) +
            (j : ℚ) * ((j : ℚ) + 1) / 1800 * (TILE * 2 - ERROR_CORRECTION) =
          b + ((Nat.succ j : ℕ) : ℚ) * (((Nat.succ j : ℕ) : ℚ) + 1) / 1800 *
            (TILE * 2 - ERROR_CORRECTION) := by
        rw [GAME_SPEED]; push_cast; ring
      rw [this]

theorem settleY_neg : ∀ (j : ℕ), 1 ≤ j → ∀ (p b : ℚ),
    (updFrame (1 / 60))^[j] ⟨p, b, 0, -((j : ℚ) / 30)⟩ =
      ⟨((round p : ℤ) : ℚ),
        ((round (b - (j : ℚ) * ((j : ℚ) + 1) / 1800 * (TILE * 2 - ERROR_CORRECTION)) : ℤ) : ℚ),
        0, 0⟩ := by
  intro j
  induction j with
  | zero => omega
  | succ j ih =>
    intro _ p b
    rcases Nat.eq_zero_or_pos j with rfl | hjpos
    · rw [Function.iterate_one]
      have h1 : -(((Nat.succ 0 : ℕ) : ℚ) / 30) = -(1 / 30) := by norm_num
      rw [h1, updFrameY_neg_last]
      have : b + -(1 / 30) * (1 / 60) * GAME_SPEED * (TILE * 2 - ERROR_CORRECTION) =
          b - ((Nat.succ 0 : ℕ) : ℚ) * (((Nat.succ 0 : ℕ) : ℚ) + 1) / 1800 *
            (TILE * 2 - ERROR_CORRECTION) := by
        rw [GAME_SPEED]; push_cast; ring
      rw [this]
    · have hq : -(((j + 1 : ℕ) : ℚ) / 30) < -(1 / 30) := by
        have : (1 : ℚ) < ((j + 1 : ℕ) : ℚ) := by
          push_cast; exact_mod_cast by omega
        linarith
      rw [Function.iterate_succ_apply]
      have hstep := updFrameY_neg_big p b (-(((j + 1 : ℕ) : ℚ) / 30)) hq
      have hdy : -(((j + 1 : ℕ) : ℚ) / 30) + 1 / 30 = -((j : ℚ) / 30) := by push_cast; ring
      rw [show -(((Nat.succ j : ℕ) : ℚ) / 30) = -(((j + 1 : ℕ) : ℚ) / 30) by push_cast; ring,
        hstep, hdy, ih hjpos]
      have : b + -(((j + 1 : ℕ) : ℚ) / 30) * (1 / 60) * GAME_SPEED *
              (TILE * 2 - ERROR_CORRECTION) -
            (j : ℚ) * ((j : ℚ) + 1) / 1800 * (TILE * 2 - ERROR_CORRECTION) =
          b - ((Nat.succ j : ℕ) : ℚ) * (((Nat.succ j : ℕ) : ℚ) + 1) / 1800 *
            (TILE * 2 - ERROR_CORRECTION) := by
        rw [GAME_SPEED]; push_cast; ring
      rw [this]

theorem round_q_pos :
    round ((49186666666666720617 : ℚ) / 6000000000000000000) = 8 := by
  rw [round_eq, Int.floor_eq_iff] <;> norm_num

theorem round_q_neg :
    round ((-49186666666666720617 : ℚ) / 6000000000000000000) = -8 := by
  rw [round_eq, Int.floor_eq_iff] <;> norm_num

theorem round_disp_pos (a : ℤ) :
    round ((a : ℚ) + (30 : ℚ) * ((30 : ℚ) + 1) / 1800 * (TILE * 2 - ERROR_CORRECTION)) =
      a + 8 := by
  rw [show (30 : ℚ) * ((30 : ℚ) + 1) / 1800 * (TILE * 2 - ERROR_CORRECTION) =
      49186666666666720617 / 6000000000000000000 by norm_num [TILE, ERROR_CORRECTION],
    round_int_add, round_q_pos]

theorem round_disp_neg (a : ℤ) :
    round ((a : ℚ) - (30 : ℚ) * ((30 : ℚ) + 1) / 1800 * (TILE * 2 - ERROR_CORRECTION)) =
      a - 8 := by
  rw [show (30 : ℚ) * ((30 : ℚ) + 1) / 1800 * (TILE * 2 - ERROR_CORRECTION) =
      49186666666666720617 / 6000000000000000000 by norm_num [TILE, ERROR_CORRECTION],
    sub_eq_add_neg,
    show -((49186666666666720617 : ℚ) / 6000000000000000000) =
      (-49186666666666720617 : ℚ) / 6000000000000000000 by norm_num,
    round_int_add, round_q_neg]
  omega

theorem win30_right (a b : ℤ) :
    (updFrame (1 / 60))^[30] ⟨(a : ℚ), (b : ℚ), 1, 0⟩ =
      ⟨((a + 8 : ℤ) : ℚ), (b : ℚ), 0, 0⟩ := by
  nth_rewrite 2 [show (1 : ℚ) = ((30 : ℕ) : ℚ) / 30 by norm_num]
  rw [settleX_pos 30 (by norm_num)]
  rw [show (((30 : ℕ) : ℚ)) * (((30 : ℕ) : ℚ) + 1) / 1800 * (TILE * 2 - ERROR_CORRECTION) =
      (30 : ℚ) * ((30 : ℚ) + 1) / 1800 * (TILE * 2 - ERROR_CORRECTION) by norm_num]
  rw [round_disp_pos, round_intCast]

theorem win30_left (a b : ℤ) :
    (updFrame (1 / 60))^[30] ⟨(a : ℚ), (b : ℚ), -1, 0⟩ =
      ⟨((a - 8 : ℤ) : ℚ), (b : ℚ), 0, 0⟩ := by
  rw [show (-1 : ℚ) = -(((30 : ℕ) : ℚ) / 30) by norm_num,
    settleX_neg 30 (by norm_num)]
  rw [show (((30 : ℕ) : ℚ)) * (((30 : ℕ) : ℚ) + 1) / 1800 * (TILE * 2 - ERROR_CORRECTION) =
      (30 : ℚ) * ((30 : ℚ) + 1) / 1800 * (TILE * 2 - ERROR_CORRECTION) by norm_num]
  rw [round_disp_neg, round_intCast]

theorem win30_down (a b : ℤ) :
    (updFrame (1 / 60))^[30] ⟨(a : ℚ), (b : ℚ), 0, 1⟩ =
      ⟨(a : ℚ), ((b + 8 : ℤ) : ℚ), 0, 0⟩ := by
  nth_rewrite 2 [show (1 : ℚ) = ((30 : ℕ) : ℚ) / 30 by norm_num]
  rw [settleY_pos 30 (by norm_num)]
  rw [show (((30 : ℕ) : ℚ)) * (((30 : ℕ) : ℚ) + 1) / 1800 * (TILE * 2 - ERROR_CORRECTION) =
      (30 : ℚ) * ((30 : ℚ) + 1) / 1800 * (TILE * 2 - ERROR_CORRECTION) by norm_num]
  rw [round_disp_pos, round_intCast]

theorem win30_up (a b : ℤ) :
    (updFrame (1 / 60))^[30] ⟨(a : ℚ), (b : ℚ), 0, -1⟩ =
      ⟨(a : ℚ), ((b - 8 : ℤ) : ℚ), 0, 0⟩ := by
  rw [show (-1 : ℚ) = -(((30 : ℕ) : ℚ) / 30) by norm_num,
    settleY_neg 30 (by norm_num)]
  rw [show (((30 : ℕ) : ℚ)) * (((30 : ℕ) : ℚ) + 1) / 1800 * (TILE * 2 - ERROR_CORRECTION) =
      (30 : ℚ) * ((30 : ℚ) + 1) / 1800 * (TILE * 2 - ERROR_CORRECTION) by norm_num]
  rw [round_disp_neg, round_intCast]

theorem moveWindow_eq (adj : List (Finset ℕ)) (width : ℕ) (d : ℕ) (s : EState) :
    moveWindow adj width d s = (updFrame (1 / 60))^[30] (commitPart adj width d s) := by
  rw [moveWindow, updateTick, ← Function.iterate_succ_apply]

theorem jsTrunc_natCast (n : ℕ) : jsTrunc ((n : ℚ)) = (n : ℤ) := by
  unfold jsTrunc
  rw [if_pos (by positivity)]
  exact_mod_cast Int.floor_natCast n

theorem jsTrunc_tile (c : ℕ) : jsTrunc (TILE * (c : ℚ) / TILE) = (c : ℤ) := by
  rw [mul_div_cancel_left₀ _ (by norm_num [TILE] : (TILE : ℚ) ≠ 0)]
  exact jsTrunc_natCast c

theorem cell_index (width i : ℕ) :
    (((i / width : ℕ) : ℤ) * (width : ℤ) + ((i % width : ℕ) : ℤ)).toNat = i := by
  rw [show ((i / width : ℕ) : ℤ) * (width : ℤ) + ((i % width : ℕ) : ℤ) =
      ((width * (i / width) + i % width : ℕ) : ℤ) by push_cast; ring,
    Int.toNat_natCast]
  exact Nat.div_add_mod i width

theorem aligned_cast (width i : ℕ) :
    aligned width i =
      ⟨(((8 * (i % width) : ℕ) : ℤ) : ℚ), (((8 * (i / width) : ℕ) : ℤ) : ℚ), 0, 0⟩ := by
  unfold aligned TILE
  congr 1
  · rw [Int.cast_natCast, Nat.cast_mul]; norm_num [mul_comm]
  · rw [Int.cast_natCast, Nat.cast_mul]; norm_num [mul_comm]

theorem commit_aligned (adj : List (Finset ℕ)) (width : ℕ) (i : ℕ) (d : ℕ) :
    commitPart adj width d (aligned width i) =
      if ∃ j ∈ adj.getD i ∅,
          ((j % width : ℕ) : ℚ) = ((i % width : ℕ) : ℚ) +
            (if d = DIRECTION_LEFT then -1 else if d = DIRECTION_RIGHT then 1 else 0) ∧
          ((j / width : ℕ) : ℚ) = ((i / width : ℕ) : ℚ) +
            (if d = DIRECTION_UP then -1 else if d = DIRECTION_DOWN then 1 else 0)
      then ⟨TILE * ((i % width : ℕ) : ℚ), TILE * ((i / width : ℕ) : ℚ),
            if d = DIRECTION_LEFT then -1 else if d = DIRECTION_RIGHT then 1 else 0,
            if d = DIRECTION_UP then -1 else if d = DIRECTION_DOWN then 1 else 0⟩
      else ⟨TILE * ((i % width : ℕ) : ℚ), TILE * ((i / width : ℕ) : ℚ), 0, 0⟩ := by
  unfold commitPart
  simp only [show (aligned width i).dx = 0 from rfl, show (aligned width i).dy = 0 from rfl,
    show (aligned width i).px = TILE * ((i % width : ℕ) : ℚ) from rfl,
    show (aligned width i).py = TILE * ((i / width : ℕ) : ℚ) from rfl,
    jsTrunc_tile, cell_index, Int.cast_natCast]

theorem tick_aligned_right (data : List ℕ) (width : ℕ) (hw : 0 < width) (i : ℕ) :
    moveWindow (buildAdj data width) width DIRECTION_RIGHT (aligned width i) =
      aligned width (tickCell (buildAdj data width) width i DIRECTION_RIGHT) ∧
    (tickCell (buildAdj data width) width i DIRECTION_RIGHT = i ∨
     tickCell (buildAdj data width) width i DIRECTION_RIGHT ∈
       (buildAdj data width).getD i ∅) := by
  have hRL : (DIRECTION_RIGHT = DIRECTION_LEFT) = False := by
    norm_num [DIRECTION_RIGHT, DIRECTION_LEFT]
  have hRU : (DIRECTION_RIGHT = DIRECTION_UP) = False := by
    norm_num [DIRECTION_RIGHT, DIRECTION_UP]
  have hRD : (DIRECTION_RIGHT = DIRECTION_DOWN) = False := by
    norm_num [DIRECTION_RIGHT, DIRECTION_DOWN]
  have hRR : (DIRECTION_RIGHT = DIRECTION_RIGHT) = True := by simp
  rw [moveWindow_eq, commit_aligned]
  simp only [tickCell, hRL, hRU, hRD, hRR, if_true, if_false, add_zero]
  by_cases hc : ∃ j ∈ (buildAdj data width).getD i ∅,
      j % width = i % width + 1 ∧ j / width = i / width
  · obtain ⟨j, hj, hj1, hj2⟩ := hc
    have hcq : ∃ j ∈ (buildAdj data width).getD i ∅,
        ((j % width : ℕ) : ℚ) = ((i % width : ℕ) : ℚ) + 1 ∧
        ((j / width : ℕ) : ℚ) = ((i / width : ℕ) : ℚ) :=
      ⟨j, hj, by rw [hj1]; push_cast; ring, by rw [hj2]⟩
    have hcz : ∃ j ∈ (buildAdj data width).getD i ∅,
        ((j % width : ℕ) : ℤ) = ((i % width : ℕ) : ℤ) + 1 ∧
        ((j / width : ℕ) : ℤ) = ((i / width : ℕ) : ℤ) :=
      ⟨j, hj, by rw [hj1]; push_cast; ring, by rw [hj2]⟩
    rw [if_pos hcq, if_pos hcz]
    have htgt : ((((i / width : ℕ) : ℤ)) * (width : ℤ) + (((i % width : ℕ) : ℤ) + 1)).toNat = j := by
      have hcast : ((i % width : ℕ) : ℤ) + 1 = ((j % width : ℕ) : ℤ) := by
        rw [hj1]; push_cast; ring
      rw [hcast, ← hj2,
        show ((j / width : ℕ) : ℤ) * (width : ℤ) + ((j % width : ℕ) : ℤ) =
          ((width * (j / width) + j % width : ℕ) : ℤ) by push_cast; ring,
        Int.toNat_natCast]
      exact Nat.div_add_mod j width
    rw [htgt]
    constructor
    · rw [show (⟨TILE * ((i % width : ℕ) : ℚ), TILE * ((i / width : ℕ) : ℚ), 1, 0⟩ : EState) =
          ⟨(((8 * (i % width) : ℕ) : ℤ) : ℚ), (((8 * (i / width) : ℕ) : ℤ) : ℚ), 1, 0⟩ by
            unfold TILE
            congr 1
            · rw [Int.cast_natCast, Nat.cast_mul]; norm_num [mul_comm]
            · rw [Int.cast_natCast, Nat.cast_mul]; norm_num [mul_comm],
        win30_right, aligned_cast]
      congr 2
      · rw [hj1]; push_cast; ring
      · rw [hj2]
    · exact Or.inr hj
  · have hcq : ¬∃ j ∈ (buildAdj data width).getD i ∅,
        ((j % width : ℕ) : ℚ) = ((i % width : ℕ) : ℚ) + 1 ∧
        ((j / width : ℕ) : ℚ) = ((i / width : ℕ) : ℚ) := by
      rintro ⟨j, hj, h1, h2⟩
      exact hc ⟨j, hj, by exact_mod_cast h1, by exact_mod_cast h2⟩
    have hcz : ¬∃ j ∈ (buildAdj data width).getD i ∅,
        ((j % width : ℕ) : ℤ) = ((i % width : ℕ) : ℤ) + 1 ∧
        ((j / width : ℕ) : ℤ) = ((i / width : ℕ) : ℤ) := by
      rintro ⟨j, hj, h1, h2⟩
      exact hc ⟨j, hj, by exact_mod_cast h1, by exact_mod_cast h2⟩
    rw [if_neg hcq, if_neg hcz]
    refine ⟨?_, Or.inl rfl⟩
    rw [show (⟨TILE * ((i % width : ℕ) : ℚ), TILE * ((i / width : ℕ) : ℚ), 0, 0⟩ : EState) =
        ⟨(((8 * (i % width) : ℕ) : ℤ) : ℚ), (((8 * (i / width) : ℕ) : ℤ) : ℚ), 0, 0⟩ by
          unfold TILE
          congr 1
          · rw [Int.cast_natCast, Nat.cast_mul]; norm_num [mul_comm]
          · rw [Int.cast_natCast, Nat.cast_mul]; norm_num [mul_comm],
      updFrame_zero_iter, aligned_cast]

theorem tick_aligned_left (data : List ℕ) (width : ℕ) (hw : 0 < width) (i : ℕ) :
    moveWindow (buildAdj data width) width DIRECTION_LEFT (aligned width i) =
      aligned width (tickCell (buildAdj data width) width i DIRECTION_LEFT) ∧
    (tickCell (buildAdj data width) width i DIRECTION_LEFT = i ∨
     tickCell (buildAdj data width) width i DIRECTION_LEFT ∈
       (buildAdj data width).getD i ∅) := by
  have hLL : (DIRECTION_LEFT = DIRECTION_LEFT) = True := by simp
  have hLU : (DIRECTION_LEFT = DIRECTION_UP) = False := by
    norm_num [DIRECTION_LEFT, DIRECTION_UP]
  have hLD : (DIRECTION_LEFT = DIRECTION_DOWN) = False := by
    norm_num [DIRECTION_LEFT, DIRECTION_DOWN]
  rw [moveWindow_eq, commit_aligned]
  simp only [tickCell, hLL, hLU, hLD, if_true, if_false, add_zero]
  by_cases hc : ∃ j ∈ (buildAdj data width).getD i ∅,
      j % width + 1 = i % width ∧ j / width = i / width
  · obtain ⟨j, hj, hj1, hj2⟩ := hc
    have hcq : ∃ j ∈ (buildAdj data width).getD i ∅,
        ((j % width : ℕ) : ℚ) = ((i % width : ℕ) : ℚ) + -1 ∧
        ((j / width : ℕ) : ℚ) = ((i / width : ℕ) : ℚ) :=
      ⟨j, hj, by rw [← hj1]; push_cast; ring, by rw [hj2]⟩
    have hcz : ∃ j ∈ (buildAdj data width).getD i ∅,
        ((j % width : ℕ) : ℤ) = ((i % width : ℕ) : ℤ) + -1 ∧
        ((j / width : ℕ) : ℤ) = ((i / width : ℕ) : ℤ) :=
      ⟨j, hj, by rw [← hj1]; push_cast; ring, by rw [hj2]⟩
    rw [if_pos hcq, if_pos hcz]
    have htgt : ((((i / width : ℕ) : ℤ)) * (width : ℤ) +
        (((i % width : ℕ) : ℤ) + -1)).toNat = j := by
      have hcast : ((i % width : ℕ) : ℤ) + -1 = ((j % width : ℕ) : ℤ) := by
        rw [← hj1]; push_cast; ring
      rw [hcast, ← hj2,
        show ((j / width : ℕ) : ℤ) * (width : ℤ) + ((j % width : ℕ) : ℤ) =
          ((width * (j / width) + j % width : ℕ) : ℤ) by push_cast; ring,
        Int.toNat_natCast]
      exact Nat.div_add_mod j width
    rw [htgt]
    constructor
    · rw [show (⟨TILE * ((i % width : ℕ) : ℚ), TILE * ((i / width : ℕ) : ℚ), -1, 0⟩ : EState) =
          ⟨(((8 * (i % width) : ℕ) : ℤ) : ℚ), (((8 * (i / width) : ℕ) : ℤ) : ℚ), -1, 0⟩ by
            unfold TILE
            congr 1
            · rw [Int.cast_natCast, Nat.cast_mul]; norm_num [mul_comm]
            · rw [Int.cast_natCast, Nat.cast_mul]; norm_num [mul_comm],
        win30_left, aligned_cast]
      congr 2
      · push_cast
        omega
      · rw [hj2]
    · exact Or.inr hj
  · have hcq : ¬∃ j ∈ (buildAdj data width).getD i ∅,
        ((j % width : ℕ) : ℚ) = ((i % width : ℕ) : ℚ) + -1 ∧
        ((j / width : ℕ) : ℚ) = ((i / width : ℕ) : ℚ) := by
      rintro ⟨j, hj, h1, h2⟩
      have h1n : j % width + 1 = i % width := by
        have h1q : ((j % width : ℕ) : ℚ) + 1 = ((i % width : ℕ) : ℚ) := by linarith
        exact_mod_cast h1q
      exact hc ⟨j, hj, h1n, by exact_mod_cast h2⟩
    have hcz : ¬∃ j ∈ (buildAdj data width).getD i ∅,
        ((j % width : ℕ) : ℤ) = ((i % width : ℕ) : ℤ) + -1 ∧
        ((j / width : ℕ) : ℤ) = ((i / width : ℕ) : ℤ) := by
      rintro ⟨j, hj, h1, h2⟩
      exact hc ⟨j, hj, by omega, by exact_mod_cast h2⟩
    rw [if_neg hcq, if_neg hcz]
    refine ⟨?_, Or.inl rfl⟩
    rw [show (⟨TILE * ((i % width : ℕ) : ℚ), TILE * ((i / width : ℕ) : ℚ), 0, 0⟩ : EState) =
        ⟨(((8 * (i % width) : ℕ) : ℤ) : ℚ), (((8 * (i / width) : ℕ) : ℤ) : ℚ), 0, 0⟩ by
          unfold TILE
          congr 1
          · rw [Int.cast_natCast, Nat.cast_mul]; norm_num [mul_comm]
          · rw [Int.cast_natCast, Nat.cast_mul]; norm_num [mul_comm],
      updFrame_zero_iter, aligned_cast]

theorem tick_aligned_down (data : List ℕ) (width : ℕ) (hw : 0 < width) (i : ℕ) :
    moveWindow (buildAdj data width) width DIRECTION_DOWN (aligned width i) =
      aligned width (tickCell (buildAdj data width) width i DIRECTION_DOWN) ∧
    (tickCell (buildAdj data width) width i DIRECTION_DOWN = i ∨
     tickCell (buildAdj data width) width i DIRECTION_DOWN ∈
       (buildAdj data width).getD i ∅) := by
  have hDL : (DIRECTION_DOWN = DIRECTION_LEFT) = False := by
    norm_num [DIRECTION_DOWN, DIRECTION_LEFT]
  have hDR : (DIRECTION_DOWN = DIRECTION_RIGHT) = False := by
    norm_num [DIRECTION_DOWN, DIRECTION_RIGHT]
  have hDU : (DIRECTION_DOWN = DIRECTION_UP) = False := by
    norm_num [DIRECTION_DOWN, DIRECTION_UP]
  have hDD : (DIRECTION_DOWN = DIRECTION_DOWN) = True := by simp
  rw [moveWindow_eq, commit_aligned]
  simp only [tickCell, hDL, hDR, hDU, hDD, if_true, if_false, add_zero]
  by_cases hc : ∃ j ∈ (buildAdj data width).getD i ∅,
      j % width = i % width ∧ j / width = i / width + 1
  · obtain ⟨j, hj, hj1, hj2⟩ := hc
    have hcq : ∃ j ∈ (buildAdj data width).getD i ∅,
        ((j % width : ℕ) : ℚ) = ((i % width : ℕ) : ℚ) ∧
        ((j / width : ℕ) : ℚ) = ((i / width : ℕ) : ℚ) + 1 :=
      ⟨j, hj, by rw [hj1], by rw [hj2]; push_cast; ring⟩
    have hcz : ∃ j ∈ (buildAdj data width).getD i ∅,
        ((j % width : ℕ) : ℤ) = ((i % width : ℕ) : ℤ) ∧
        ((j / width : ℕ) : ℤ) = ((i / width : ℕ) : ℤ) + 1 :=
      ⟨j, hj, by rw [hj1], by rw [hj2]; push_cast; ring⟩
    rw [if_pos hcq, if_pos hcz]
    have htgt : (((((i / width : ℕ) : ℤ)) + 1) * (width : ℤ) +
        ((i % width : ℕ) : ℤ)).toNat = j := by
      have hcast : ((i / width : ℕ) : ℤ) + 1 = ((j / width : ℕ) : ℤ) := by
        rw [hj2]; push_cast; ring
      rw [hcast, ← hj1,
        show ((j / width : ℕ) : ℤ) * (width : ℤ) + ((j % width : ℕ) : ℤ) =
          ((width * (j / width) + j % width : ℕ) : ℤ) by push_cast; ring,
        Int.toNat_natCast]
      exact Nat.div_add_mod j width
    rw [htgt]
    constructor
    · rw [show (⟨TILE * ((i % width : ℕ) : ℚ), TILE * ((i / width : ℕ) : ℚ), 0, 1⟩ : EState) =
          ⟨(((8 * (i % width) : ℕ) : ℤ) : ℚ), (((8 * (i / width) : ℕ) : ℤ) : ℚ), 0, 1⟩ by
            unfold TILE
            congr 1
            · rw [Int.cast_natCast, Nat.cast_mul]; norm_num [mul_comm]
            · rw [Int.cast_natCast, Nat.cast_mul]; norm_num [mul_comm],
        win30_down, aligned_cast]
      congr 2
      · rw [hj1]
      · rw [hj2]; push_cast; ring
    · exact Or.inr hj
  · have hcq : ¬∃ j ∈ (buildAdj data width).getD i ∅,
        ((j % width : ℕ) : ℚ) = ((i % width : ℕ) : ℚ) ∧
        ((j / width : ℕ) : ℚ) = ((i / width : ℕ) : ℚ) + 1 := by
      rintro ⟨j, hj, h1, h2⟩
      have h2n : j / width = i / width + 1 := by
        have h2q : ((j / width : ℕ) : ℚ) = ((i / width + 1 : ℕ) : ℚ) := by push_cast; linarith
        exact_mod_cast h2q
      exact hc ⟨j, hj, by exact_mod_cast h1, h2n⟩
    have hcz : ¬∃ j ∈ (buildAdj data width).getD i ∅,
        ((j % width : ℕ) : ℤ) = ((i % width : ℕ) : ℤ) ∧
        ((j / width : ℕ) : ℤ) = ((i / width : ℕ) : ℤ) + 1 := by
      rintro ⟨j, hj, h1, h2⟩
      exact hc ⟨j, hj, by exact_mod_cast h1, by omega⟩
    rw [if_neg hcq, if_neg hcz]
    refine ⟨?_, Or.inl rfl⟩
    rw [show (⟨TILE * ((i % width : ℕ) : ℚ), TILE * ((i / width : ℕ) : ℚ), 0, 0⟩ : EState) =
        ⟨(((8 * (i % width) : ℕ) : ℤ) : ℚ), (((8 * (i / width) : ℕ) : ℤ) : ℚ), 0, 0⟩ by
          unfold TILE
          congr 1
          · rw [Int.cast_natCast, Nat.cast_mul]; norm_num [mul_comm]
          · rw [Int.cast_natCast, Nat.cast_mul]; norm_num [mul_comm],
      updFrame_zero_iter, aligned_cast]

theorem tick_aligned_up (data : List ℕ) (width : ℕ) (hw : 0 < width) (i : ℕ) :
    moveWindow (buildAdj data width) width DIRECTION_UP (aligned width i) =
      aligned width (tickCell (buildAdj data width) width i DIRECTION_UP) ∧
    (tickCell (buildAdj data width) width i DIRECTION_UP = i ∨
     tickCell (buildAdj data width) width i DIRECTION_UP ∈
       (buildAdj data width).getD i ∅) := by
  have hUL : (DIRECTION_UP = DIRECTION_LEFT) = False := by
    norm_num [DIRECTION_UP, DIRECTION_LEFT]
  have hUR : (DIRECTION_UP = DIRECTION_RIGHT) = False := by
    norm_num [DIRECTION_UP, DIRECTION_RIGHT]
  have hUU : (DIRECTION_UP = DIRECTION_UP) = True := by simp
  rw [moveWindow_eq, commit_aligned]
  simp only [tickCell, hUL, hUR, hUU, if_true, if_false, add_zero]
  by_cases hc : ∃ j ∈ (buildAdj data width).getD i ∅,
      j % width = i % width ∧ j / width + 1 = i / width
  · obtain ⟨j, hj, hj1, hj2⟩ := hc
    have hcq : ∃ j ∈ (buildAdj data width).getD i ∅,
        ((j % width : ℕ) : ℚ) = ((i % width : ℕ) : ℚ) ∧
        ((j / width : ℕ) : ℚ) = ((i / width : ℕ) : ℚ) + -1 :=
      ⟨j, hj, by rw [hj1], by rw [← hj2]; push_cast; ring⟩
    have hcz : ∃ j ∈ (buildAdj data width).getD i ∅,
        ((j % width : ℕ) : ℤ) = ((i % width : ℕ) : ℤ) ∧
        ((j / width : ℕ) : ℤ) = ((i / width : ℕ) : ℤ) + -1 :=
      ⟨j, hj, by rw [hj1], by rw [← hj2]; push_cast; ring⟩
    rw [if_pos hcq, if_pos hcz]
    have htgt : (((((i / width : ℕ) : ℤ)) + -1) * (width : ℤ) +
        ((i % width : ℕ) : ℤ)).toNat = j := by
      have hcast : ((i / width : ℕ) : ℤ) + -1 = ((j / width : ℕ) : ℤ) := by
        rw [← hj2]; push_cast; ring
      rw [hcast, ← hj1,
        show ((j / width : ℕ) : ℤ) * (width : ℤ) + ((j % width : ℕ) : ℤ) =
          ((width * (j / width) + j % width : ℕ) : ℤ) by push_cast; ring,
        Int.toNat_natCast]
      exact Nat.div_add_mod j width
    rw [htgt]
    constructor
    · rw [show (⟨TILE * ((i % width : ℕ) : ℚ), TILE * ((i / width : ℕ) : ℚ), 0, -1⟩ : EState) =
          ⟨(((8 * (i % width) : ℕ) : ℤ) : ℚ), (((8 * (i / width) : ℕ) : ℤ) : ℚ), 0, -1⟩ by
            unfold TILE
            congr 1
            · rw [Int.cast_natCast, Nat.cast_mul]; norm_num [mul_comm]
            · rw [Int.cast_natCast, Nat.cast_mul]; norm_num [mul_comm],
        win30_up, aligned_cast]
      congr 2
      · rw [hj1]
      · push_cast
        omega
    · exact Or.inr hj
  · have hcq : ¬∃ j ∈ (buildAdj data width).getD i ∅,
        ((j % width : ℕ) : ℚ) = ((i % width : ℕ) : ℚ) ∧
        ((j / width : ℕ) : ℚ) = ((i / width : ℕ) : ℚ) + -1 := by
      rintro ⟨j, hj, h1, h2⟩
      have h2n : j / width + 1 = i / width := by
        have h2q : ((j / width : ℕ) : ℚ) + 1 = ((i / width : ℕ) : ℚ) := by linarith
        exact_mod_cast h2q
      exact hc ⟨j, hj, by exact_mod_cast h1, h2n⟩
    have hcz : ¬∃ j ∈ (buildAdj data width).getD i ∅,
        ((j % width : ℕ) : ℤ) = ((i % width : ℕ) : ℤ) ∧
        ((j / width : ℕ) : ℤ) = ((i / width : ℕ) : ℤ) + -1 := by
      rintro ⟨j, hj, h1, h2⟩
      exact hc ⟨j, hj, by exact_mod_cast h1, by omega⟩
    rw [if_neg hcq, if_neg hcz]
    refine ⟨?_, Or.inl rfl⟩
    rw [show (⟨TILE * ((i % width : ℕ) : ℚ), TILE * ((i / width : ℕ) : ℚ), 0, 0⟩ : EState) =
        ⟨(((8 * (i % width) : ℕ) : ℤ) : ℚ), (((8 * (i / width) : ℕ) : ℤ) : ℚ), 0, 0⟩ by
          unfold TILE
          congr 1
          · rw [Int.cast_natCast, Nat.cast_mul]; norm_num [mul_comm]
          · rw [Int.cast_natCast, Nat.cast_mul]; norm_num [mul_comm],
      updFrame_zero_iter, aligned_cast]

theorem tick_aligned_other (data : List ℕ) (width : ℕ) (hw : 0 < width) (i : ℕ) (d : ℕ)
    (h1 : d ≠ DIRECTION_LEFT) (h2 : d ≠ DIRECTION_RIGHT)
    (h3 : d ≠ DIRECTION_UP) (h4 : d ≠ DIRECTION_DOWN) :
    moveWindow (buildAdj data width) width d (aligned width i) =
      aligned width (tickCell (buildAdj data width) width i d) ∧
    (tickCell (buildAdj data width) width i d = i ∨
     tickCell (buildAdj data width) width i d ∈
       (buildAdj data width).getD i ∅) := by
  rw [moveWindow_eq, commit_aligned]
  simp only [tickCell, if_neg h1, if_neg h2, if_neg h3, if_neg h4, add_zero]
  rw [cell_index, ite_self, ite_self]
  refine ⟨?_, Or.inl rfl⟩
  rw [show (⟨TILE * ((i % width : ℕ) : ℚ), TILE * ((i / width : ℕ) : ℚ), 0, 0⟩ : EState) =
      ⟨(((8 * (i % width) : ℕ) : ℤ) : ℚ), (((8 * (i / width) : ℕ) : ℤ) : ℚ), 0, 0⟩ by
        unfold TILE
        congr 1
        · rw [Int.cast_natCast, Nat.cast_mul]; norm_num [mul_comm]
        · rw [Int.cast_natCast, Nat.cast_mul]; norm_num [mul_comm],
    updFrame_zero_iter, aligned_cast]

theorem moveWindow_aligned (data : List ℕ) (width : ℕ) (hw : 0 < width) (i : ℕ)
    (hi : i < data.length) (d : ℕ) :
    moveWindow (buildAdj data width) width d (aligned width i) =
      aligned width (tickCell (buildAdj data width) width i d) ∧
    tickCell (buildAdj data width) width i d < data.length ∧
    (tickCell (buildAdj data width) width i d = i ∨
     tickCell (buildAdj data width) width i d ∈ (buildAdj data width).getD i ∅) := by
  have h : moveWindow (buildAdj data width) width d (aligned width i) =
      aligned width (tickCell (buildAdj data width) width i d) ∧
      (tickCell (buildAdj data width) width i d = i ∨
       tickCell (buildAdj data width) width i d ∈ (buildAdj data width).getD i ∅) := by
    by_cases hL : d = DIRECTION_LEFT
    · subst hL; exact tick_aligned_left data width hw i
    by_cases hR : d = DIRECTION_RIGHT
    · subst hR; exact tick_aligned_right data width hw i
    by_cases hU : d = DIRECTION_UP
    · subst hU; exact tick_aligned_up data width hw i
    by_cases hD : d = DIRECTION_DOWN
    · subst hD; exact tick_aligned_down data width hw i
    exact tick_aligned_other data width hw i d hL hR hU hD
  refine ⟨h.1, ?_, h.2⟩
  rcases h.2 with heq | hmem
  · rw [heq]; exact hi
  · exact (mem_buildAdj_lt data width hw i _ hmem).2

theorem tickCell_target (adj : List (Finset ℕ)) (width : ℕ) (i j : ℕ) (d : ℕ)
    (hj : j ∈ adj.getD i ∅)
    (hx : ((j % width : ℕ) : ℤ) = ((i % width : ℕ) : ℤ) +
      (if d = DIRECTION_LEFT then -1 else if d = DIRECTION_RIGHT then 1 else 0))
    (hy : ((j / width : ℕ) : ℤ) = ((i / width : ℕ) : ℤ) +
      (if d = DIRECTION_UP then -1 else if d = DIRECTION_DOWN then 1 else 0)) :
    tickCell adj width i d = j := by
  unfold tickCell
  rw [if_pos ⟨j, hj, hx, hy⟩, ← hx, ← hy,
    show ((j / width : ℕ) : ℤ) * (width : ℤ) + ((j % width : ℕ) : ℤ) =
      ((width * (j / width) + j % width : ℕ) : ℤ) by push_cast; ring,
    Int.toNat_natCast]
  exact Nat.div_add_mod j width

/-- C3: movement containment.  For every sequence of direction requests,
the entity's state after the completed move-tick windows is the rest state
of a cell that is in the graph and reachable from the starting cell along
graph edges; the per-window cell transition `tickCell` moves only to a
current neighbour (or stays put).  The grid cell recomputed from the pixel
position as the code does (`position / tileSize`, truncated) is that
cell. -/
theorem c3_movement_containment (data : List ℕ) (width : ℕ) (hw : 0 < width)
    (i0 : ℕ) (hi0 : i0 < data.length) (ds : List ℕ) :
    simRun (buildAdj data width) width (aligned width i0) ds =
      aligned width (runCell (buildAdj data width) width i0 ds) ∧
    runCell (buildAdj data width) width i0 ds < data.length ∧
    Reach (buildAdj data width) i0 (runCell (buildAdj data width) width i0 ds) ∧
    jsTrunc ((simRun (buildAdj data width) width (aligned width i0) ds).px / TILE) =
      ((runCell (buildAdj data width) width i0 ds % width : ℕ) : ℤ) ∧
    jsTrunc ((simRun (buildAdj data width) width (aligned width i0) ds).py / TILE) =
      ((runCell (buildAdj data width) width i0 ds / width : ℕ) : ℤ) := by
  have main : ∀ (ds : List ℕ) (i0 : ℕ), i0 < data.length →
      simRun (buildAdj data width) width (aligned width i0) ds =
        aligned width (runCell (buildAdj data width) width i0 ds) ∧
      runCell (buildAdj data width) width i0 ds < data.length ∧
      Reach (buildAdj data width) i0 (runCell (buildAdj data width) width i0 ds) := by
    intro ds
    induction ds with
    | nil =>
      intro i0 hi0
      exact ⟨rfl, hi0, Relation.ReflTransGen.refl⟩
    | cons d rest ih =>
      intro i0 hi0
      obtain ⟨hstep, hlt, hor⟩ := moveWindow_aligned data width hw i0 hi0 d
      have hrest := ih (tickCell (buildAdj data width) width i0 d) hlt
      have hreach1 : Reach (buildAdj data width) i0
          (tickCell (buildAdj data width) width i0 d) := by
        rcases hor with heq | hmem
        · rw [heq]
          exact Relation.ReflTransGen.refl
        · exact Relation.ReflTransGen.single hmem
      refine ⟨?_, hrest.2.1, Relation.ReflTransGen.trans hreach1 hrest.2.2⟩
      have h1 := hrest.1
      simp only [simRun, runCell, List.foldl_cons] at h1 ⊢
      rw [hstep]
      exact h1
  obtain ⟨h1, h2, h3⟩ := main ds i0 hi0
  refine ⟨h1, h2, h3, ?_, ?_⟩
  · rw [h1]
    exact jsTrunc_tile _
  · rw [h1]
    exact jsTrunc_tile _

theorem c3_witness :
    Reach (buildAdj (List.replicate 16 16) 4) 5
      (runCell (buildAdj (List.replicate 16 16) 4) 4 5
        [DIRECTION_RIGHT, DIRECTION_DOWN]) :=
  (c3_movement_containment (List.replicate 16 16) 4 (by norm_num) 5 (by norm_num)
    [DIRECTION_RIGHT, DIRECTION_DOWN]).2.2.1

/-- C4: invalid-move atomicity.  If the current cell's node has no
neighbour at the requested offset, the commit forces both axis deltas to 0
and the whole move-tick window leaves the entity's position unchanged. -/
theorem c4_invalid_move_atomicity (data : List ℕ) (width : ℕ) (hw : 0 < width)
    (i d : ℕ)
    (hno : ¬∃ j ∈ (buildAdj data width).getD i ∅,
        ((j % width : ℕ) : ℚ) = ((i % width : ℕ) : ℚ) +
          (if d = DIRECTION_LEFT then -1 else if d = DIRECTION_RIGHT then 1 else 0) ∧
        ((j / width : ℕ) : ℚ) = ((i / width : ℕ) : ℚ) +
          (if d = DIRECTION_UP then -1 else if d = DIRECTION_DOWN then 1 else 0)) :
    (commitPart (buildAdj data width) width d (aligned width i)).dx = 0 ∧
    (commitPart (buildAdj data width) width d (aligned width i)).dy = 0 ∧
    moveWindow (buildAdj data width) width d (aligned width i) = aligned width i := by
  refine ⟨?_, ?_, ?_⟩
  · rw [commit_aligned, if_neg hno]
  · rw [commit_aligned, if_neg hno]
  · rw [moveWindow_eq, commit_aligned, if_neg hno]
    rw [show (⟨TILE * ((i % width : ℕ) : ℚ), TILE * ((i / width : ℕ) : ℚ), 0, 0⟩ : EState) =
        ⟨(((8 * (i % width) : ℕ) : ℤ) : ℚ), (((8 * (i / width) : ℕ) : ℤ) : ℚ), 0, 0⟩ by
          unfold TILE
          congr 1
          · rw [Int.cast_natCast, Nat.cast_mul]; norm_num [mul_comm]
          · rw [Int.cast_natCast, Nat.cast_mul]; norm_num [mul_comm],
      updFrame_zero_iter, aligned_cast]

theorem c4_witness :
    moveWindow (buildAdj (List.replicate 16 16) 4) 4 DIRECTION_UP (aligned 4 0) =
      aligned 4 0 := by
  refine (c4_invalid_move_atomicity (List.replicate 16 16) 4 (by norm_num) 0 DIRECTION_UP
    ?_).2.2
  have hset : (buildAdj (List.replicate 16 16) 4).getD 0 ∅ = {1, 4} := by decide
  rintro ⟨j, hj, h1, h2⟩
  rw [hset, Finset.mem_insert, Finset.mem_singleton] at hj
  rcases hj with rfl | rfl
  · norm_num [DIRECTION_UP, DIRECTION_LEFT, DIRECTION_RIGHT, DIRECTION_DOWN] at h2
  · norm_num [DIRECTION_UP, DIRECTION_LEFT, DIRECTION_RIGHT, DIRECTION_DOWN] at h2

/-- C7: snap-to-grid.  An entity at rest on a tile-aligned cell that
commits one valid unit move toward neighbour `j` completes the full tile
crossing within one move-tick window: the window ends in the rest state of
cell `j`, whose pixel coordinates are exact integer multiples of the tile
size (the next tile-aligned coordinate). -/
theorem c7_snap_to_grid (data : List ℕ) (width : ℕ) (hw : 0 < width) (i j d : ℕ)
    (hj : j ∈ (buildAdj data width).getD i ∅)
    (hx : ((j % width : ℕ) : ℤ) = ((i % width : ℕ) : ℤ) +
      (if d = DIRECTION_LEFT then -1 else if d = DIRECTION_RIGHT then 1 else 0))
    (hy : ((j / width : ℕ) : ℤ) = ((i / width : ℕ) : ℤ) +
      (if d = DIRECTION_UP then -1 else if d = DIRECTION_DOWN then 1 else 0)) :
    moveWindow (buildAdj data width) width d (aligned width i) = aligned width j ∧
    (moveWindow (buildAdj data width) width d (aligned width i)).px =
      TILE * ((j % width : ℕ) : ℚ) ∧
    (moveWindow (buildAdj data width) width d (aligned width i)).py =
      TILE * ((j / width : ℕ) : ℚ) := by
  have hi := (mem_buildAdj_lt data width hw i j hj).1
  have ht := tickCell_target (buildAdj data width) width i j d hj hx hy
  have hm := (moveWindow_aligned data width hw i hi d).1
  rw [ht] at hm
  exact ⟨hm, by rw [hm]; rfl, by rw [hm]; rfl⟩

theorem c7_witness :
    moveWindow (buildAdj (List.replicate 16 16) 4) 4 DIRECTION_RIGHT (aligned 4 5) =
      aligned 4 6 :=
  (c7_snap_to_grid (List.replicate 16 16) 4 (by norm_num) 5 6 DIRECTION_RIGHT
    (by decide) (by decide) (by decide)).1

theorem updFrame_dx (dt : ℚ) (s : EState) :
    (updFrame dt s).dx =
      (fun d1 => if d1 < 0 then min (d1 + dt * GAME_SPEED) 0 else d1)
        (if 0 < s.dx then max (s.dx - dt * GAME_SPEED) 0 else s.dx) := by
  simp only [updFrame]
  split_ifs <;> rfl

theorem decay_pos_closed (dt : ℚ) (hdt : 0 < dt) (p q x0 : ℚ) (hx0 : 0 < x0) :
    ∀ k : ℕ, ((updFrame dt)^[k] ⟨p, q, x0, 0⟩).dx =
      max (x0 - k * (dt * GAME_SPEED)) 0 := by
  have hh : 0 < dt * GAME_SPEED := by rw [GAME_SPEED]; linarith
  have main : ∀ k : ℕ, ∀ s : EState, s.dx = max (x0 - k * (dt * GAME_SPEED)) 0 →
      (updFrame dt s).dx = max (x0 - (k + 1 : ℕ) * (dt * GAME_SPEED)) 0 := by
    intro k s hs
    rw [updFrame_dx, hs]
    beta_reduce
    by_cases hm : 0 < max (x0 - k * (dt * GAME_SPEED)) 0
    · have hx : 0 < x0 - k * (dt * GAME_SPEED) := by
        rcases max_cases (x0 - k * (dt * GAME_SPEED)) 0 with ⟨he, _⟩ | ⟨he, _⟩ <;>
          rw [he] at hm <;> [exact hm; exact absurd hm (lt_irrefl 0)]
      rw [if_pos hm, max_eq_left (le_of_lt hx)]
      have hnn : 0 ≤ max (x0 - k * (dt * GAME_SPEED) - dt * GAME_SPEED) 0 := le_max_right _ _
      rw [if_neg (not_lt.mpr hnn)]
      congr 1
      push_cast
      ring
    · have hzero : max (x0 - k * (dt * GAME_SPEED)) 0 = 0 := by
        rcases max_cases (x0 - k * (dt * GAME_SPEED)) 0 with ⟨he, hle⟩ | ⟨he, _⟩
        · rw [he]; linarith [not_lt.mp hm, he ▸ not_lt.mp hm]
        · exact he
      rw [hzero, if_neg (by norm_num), if_neg (by norm_num)]
      have hle : x0 - k * (dt * GAME_SPEED) ≤ 0 := by
        by_contra hcon
        exact hm (hzero ▸ lt_max_of_lt_left (by linarith))
      rw [max_eq_right]
      push_cast
      nlinarith [hle, hh]
  intro k
  induction k with
  | zero =>
    simp only [Function.iterate_zero, id_eq]
    rw [Nat.cast_zero, zero_mul, sub_zero, max_eq_left (le_of_lt hx0)]
  | succ k ih =>
    rw [Function.iterate_succ_apply']
    exact main k _ ih

theorem decay_neg_closed (dt : ℚ) (hdt : 0 < dt) (p q x0 : ℚ) (hx0 : x0 < 0) :
    ∀ k : ℕ, ((updFrame dt)^[k] ⟨p, q, x0, 0⟩).dx =
      min (x0 + k * (dt * GAME_SPEED)) 0 := by
  have hh : 0 < dt * GAME_SPEED := by rw [GAME_SPEED]; linarith
  have main : ∀ k : ℕ, ∀ s : EState, s.dx = min (x0 + k * (dt * GAME_SPEED)) 0 →
      (updFrame dt s).dx = min (x0 + (k + 1 : ℕ) * (dt * GAME_SPEED)) 0 := by
    intro k s hs
    rw [updFrame_dx, hs]
    beta_reduce
    have hnp : ¬0 < min (x0 + k * (dt * GAME_SPEED)) 0 :=
      not_lt.mpr (min_le_right _ _)
    rw [if_neg hnp]
    by_cases hm : min (x0 + k * (dt * GAME_SPEED)) 0 < 0
    · have hx : x0 + k * (dt * GAME_SPEED) < 0 := by
        rcases min_cases (x0 + k * (dt * GAME_SPEED)) 0 with ⟨he, _⟩ | ⟨he, _⟩ <;>
          rw [he] at hm <;> [exact hm; exact absurd hm (lt_irrefl 0)]
      rw [if_pos hm, min_eq_left (le_of_lt hx)]
      congr 1
      push_cast
      ring
    · have hzero : min (x0 + k * (dt * GAME_SPEED)) 0 = 0 := by
        rcases min_cases (x0 + k * (dt * GAME_SPEED)) 0 with ⟨he, hle⟩ | ⟨he, _⟩
        · rw [he]; linarith [not_lt.mp hm, he ▸ not_lt.mp hm]
        · exact he
      rw [hzero, if_neg (by norm_num)]
      have hge : 0 ≤ x0 + k * (dt * GAME_SPEED) := by
        by_contra hcon
        exact hm (hzero ▸ min_lt_of_left_lt (by linarith))
      rw [min_eq_right]
      push_cast
      nlinarith [hge, hh]
  intro k
  induction k with
  | zero =>
    simp only [Function.iterate_zero, id_eq]
    rw [Nat.cast_zero, zero_mul, add_zero, min_eq_left (le_of_lt hx0)]
  | succ k ih =>
    rw [Function.iterate_succ_apply']
    exact main k _ ih

/-- C6: settling convergence.  Starting from a non-zero axis delta of
magnitude at most 1, each `update(dt)` call with fixed `dt > 0` decrements
the delta toward zero by `dt * GAME_SPEED`, clamped so a positive delta
stays non-negative and a negative delta stays non-positive (closed forms
below), and the delta is exactly 0 after `⌈1 / (dt * GAME_SPEED)⌉` calls:
no oscillation and no overshoot past zero. -/
theorem c6_settling_convergence (p q x0 dt : ℚ) (hx0 : x0 ≠ 0) (hx1 : |x0| ≤ 1)
    (hdt : 0 < dt) :
    (∀ k : ℕ, 0 < x0 → ((updFrame dt)^[k] ⟨p, q, x0, 0⟩).dx =
      max (x0 - k * (dt * GAME_SPEED)) 0) ∧
    (∀ k : ℕ, x0 < 0 → ((updFrame dt)^[k] ⟨p, q, x0, 0⟩).dx =
      min (x0 + k * (dt * GAME_SPEED)) 0) ∧
    ((updFrame dt)^[⌈1 / (dt * GAME_SPEED)⌉₊] ⟨p, q, x0, 0⟩).dx = 0 := by
  have hh : 0 < dt * GAME_SPEED := by rw [GAME_SPEED]; linarith
  have hceil : 1 ≤ (⌈1 / (dt * GAME_SPEED)⌉₊ : ℚ) * (dt * GAME_SPEED) := by
    have h1 : (1 / (dt * GAME_SPEED) : ℚ) ≤ (⌈1 / (dt * GAME_SPEED)⌉₊ : ℚ) :=
      Nat.le_ceil _
    calc (1 : ℚ) = 1 / (dt * GAME_SPEED) * (dt * GAME_SPEED) := by
          field_simp
      _ ≤ (⌈1 / (dt * GAME_SPEED)⌉₊ : ℚ) * (dt * GAME_SPEED) := by
          exact mul_le_mul_of_nonneg_right h1 (le_of_lt hh)
  refine ⟨fun k hpos => decay_pos_closed dt hdt p q x0 hpos k,
    fun k hneg => decay_neg_closed dt hdt p q x0 hneg k, ?_⟩
  rcases lt_or_gt_of_ne hx0 with hneg | hpos
  · rw [decay_neg_closed dt hdt p q x0 hneg]
    rw [min_eq_right]
    have : -x0 ≤ 1 := by rw [abs_of_neg hneg] at hx1; exact hx1
    linarith
  · rw [decay_pos_closed dt hdt p q x0 hpos]
    rw [max_eq_right]
    have : x0 ≤ 1 := by rw [abs_of_pos hpos] at hx1; exact hx1
    linarith

theorem c6_witness :
    ((updFrame (1 / 60))^[⌈1 / ((1 / 60) * GAME_SPEED)⌉₊] ⟨0, 0, 1, 0⟩).dx = 0 :=
  (c6_settling_convergence 0 0 1 (1 / 60) (by norm_num) (by norm_num)
    (by norm_num)).2.2

/-! ### The guarded-setter entity (`src/js/entity.js`) -/

/-- State of the `entity.js` `Entity`: sprite position `object.x`/`object.y`,
the sprite width `object.width`, the stored deltas `_x`/`_y` and the
`moving` flag. -/
structure Entity2 where
  ox : ℚ
  oy : ℚ
  ow : ℚ
  _x : ℚ
  _y : ℚ
  moving : Bool
deriving DecidableEq

/-- Setter `set x(x)`: ignored entirely while `moving`; otherwise sets `moving`
and stores the value. -/
def Entity2.setX (e : Entity2) (v : ℚ) : Entity2 :=
  if e.moving then e else { e with moving := true, _x := v }

/-- Setter `set y(y)`: ignored entirely while `moving`; otherwise sets `moving`
and stores the value. -/
def Entity2.setY (e : Entity2) (v : ℚ) : Entity2 :=
  if e.moving then e else { e with moving := true, _y := v }

/-- The `update(delta, ...)` method of `entity.js`: advance by
`delta * (width * 2 - ERROR_CORRECTION)` per axis delta, decay each delta
by `delta` clamped at zero, and when both deltas are zero snap the position
with `Math.round` and reset `moving`. -/
def Entity2.update (delta : ℚ) (e : Entity2) : Entity2 :=
  let ox := e.ox + e._x * delta * (e.ow * 2 - ERROR_CORRECTION)
  let oy := e.oy + e._y * delta * (e.ow * 2 - ERROR_CORRECTION)
  let x1 := if 0 < e._x then max (e._x - delta) 0 else e._x
  let x2 := if x1 < 0 then min (x1 + delta) 0 else x1
  let y1 := if 0 < e._y then max (e._y - delta) 0 else e._y
  let y2 := if y1 < 0 then min (y1 + delta) 0 else y1
  if x2 = 0 ∧ y2 = 0 then
    { ox := ((round ox : ℤ) : ℚ), oy := ((round oy : ℤ) : ℚ), ow := e.ow,
      _x := x2, _y := y2, moving := false }
  else
    { ox := ox, oy := oy, ow := e.ow, _x := x2, _y := y2, moving := e.moving }

/-- C9: setter gating.  While `moving` is true an assignment to `x` or `y`
changes nothing at all; while not moving it stores the value and raises
`moving`, after which every further assignment on either axis is a no-op
until `update` observes both deltas at zero and resets `moving` to
false. -/
theorem c9_setter_gating (e : Entity2) (v u dt : ℚ) :
    (e.moving = true → e.setX v = e ∧ e.setY v = e) ∧
    (e.moving = false →
      (e.setX v)._x = v ∧ (e.setX v)._y = e._y ∧ (e.setX v).moving = true ∧
      (e.setX v).ox = e.ox ∧ (e.setX v).oy = e.oy ∧
      (e.setY v)._y = v ∧ (e.setY v)._x = e._x ∧ (e.setY v).moving = true) ∧
    (e.moving = false →
      (e.setX v).setX u = e.setX v ∧ (e.setX v).setY u = e.setX v ∧
      (e.setY v).setX u = e.setY v ∧ (e.setY v).setY u = e.setY v) ∧
    (e._x = 0 → e._y = 0 → (Entity2.update dt e).moving = false) := by
  refine ⟨fun hm => ?_, fun hm => ?_, fun hm => ?_, fun hx hy => ?_⟩
  · simp [Entity2.setX, Entity2.setY, hm]
  · simp [Entity2.setX, Entity2.setY, hm]
  · simp [Entity2.setX, Entity2.setY, hm]
  · simp [Entity2.update, hx, hy]

theorem c9_witness :
    (Entity2.setX ⟨0, 0, 8, 0, 0, true⟩ 5 = ⟨0, 0, 8, 0, 0, true⟩) ∧
    ((Entity2.setX ⟨0, 0, 8, 0, 0, false⟩ 5)._x = 5) ∧
    ((Entity2.update (1 / 60) ⟨0, 0, 8, 0, 0, false⟩).moving = false) :=
  ⟨((c9_setter_gating ⟨0, 0, 8, 0, 0, true⟩ 5 0 (1 / 60)).1 rfl).1,
   ((c9_setter_gating ⟨0, 0, 8, 0, 0, false⟩ 5 0 (1 / 60)).2.1 rfl).1,
   (c9_setter_gating ⟨0, 0, 8, 0, 0, false⟩ 5 0 (1 / 60)).2.2.2 rfl rfl⟩
